import Mathlib

/-!
# Goldfish camera JPEG path: `jpeg.cpp` and `HwCamera::compressJpeg`

A shallow embedding of `src/camera/jpeg.cpp` (`compressYUVImplPixels`,
`resizeYUV`, `StaticBufferSink`, `compressYUV`) and of
`HwCamera::compressJpeg` from `src/camera/HwCamera.cpp`.

Conventions of the embedding.

* `int` values are `Int`, `size_t` and other unsigned values are `Nat`; a
  conversion or an unsigned subtraction that can wrap is written with an
  explicit `%`.  `size_t` is 64 bits wide.
* libjpeg, libyuv, libexif, the metadata lookup and the graphic buffer mapper
  are not part of the repository; they are parameters of the model (records of
  outcome functions), and every call of one is logged in a trace of events.
* A pointer is `Option Nat`: `none` is `nullptr`, `some a` is the byte at
  offset `a` of the buffer the pointer points into.
* libjpeg reports an error by calling `error_exit` of the error manager; the
  standard routine ends the process.  A run in which that happens is marked
  `exited`: its trace stops there and nothing is returned.
-/

namespace Jpeg

/-! ## Data model -/

/-- The `android_ycbcr` descriptor: three plane pointers, the luma and chroma
row strides and the chroma step. -/
structure android_ycbcr where
  y : Option Nat
  cb : Option Nat
  cr : Option Nat
  ystride : Nat
  cstride : Nat
  chroma_step : Nat
deriving DecidableEq, Repr

/-- The value-initialised descriptor `android_ycbcr()`: null pointers, zero
strides. -/
def android_ycbcr.zero : android_ycbcr :=
  { y := none, cb := none, cr := none, ystride := 0, cstride := 0, chroma_step := 0 }

/-- The `Rect<uint16_t>` of the sources: a width and a height, both `uint16_t`
(their values are below `65536`). -/
structure Rect where
  width : Nat
  height : Nat
deriving DecidableEq, Repr

/-- Conversion of an `int32_t` to `uint16_t`, as in
`thumbnailSize.width = metadataEntry.data.i32[0]`. -/
def toUInt16 (x : Int) : Nat := (x % 65536).toNat

/-- Width of `size_t` in bits. -/
def sizeBits : Nat := 64

/-- Subtraction of two `size_t` values, wrapping modulo `2 ^ 64`. -/
def sizeSub (a b : Nat) : Nat := (a + (2 ^ sizeBits - b % 2 ^ sizeBits)) % 2 ^ sizeBits

/-- Conversion of a `size_t` to `uint32_t`, as in the assignment to
`blob.jpeg_size`. -/
def toUInt32 (x : Nat) : Nat := x % 2 ^ 32

/-! ## `compressYUVImplPixels` -/

/-- `kJpegMCUSize` of `compressYUVImplPixels`. -/
def kJpegMCUSize : Nat := 16

/-- The two fields of `jpeg_compress_struct` that `compressYUVImplPixels`
reads. -/
structure jpeg_compress_struct where
  image_height : Nat
  next_scanline : Nat
deriving DecidableEq, Repr

/-- The local arrays `y[16]`, `cb[8]`, `cr[8]`.  Each entry is the byte offset
that the loop adds to the plane pointer (`image.y`, `image.cb`, `image.cr`). -/
structure RowPointers where
  y : List Int
  cb : List Int
  cr : List Int
deriving DecidableEq, Repr

/-- Conversion to `int` and the result of an `int` operation: the value
modulo `2 ^ 32`, in the range of a signed 32-bit integer. -/
def toInt32 (x : Int) : Int := (x + 2147483648) % 4294967296 - 2147483648

/-- The row index `nscli = std::min(nscl + i, height1)` of slot `i`.
`image_height` is assigned from a `uint16_t` and `next_scanline` stays below
`image_height + 16`, so their conversions to `int` and the sum are exact. -/
def lumaRow (nscl : Int) (i : Nat) (height1 : Int) : Int :=
  min (nscl + (i : Int)) height1

/-- The chroma row index `nscli / 2` (C division, truncating). -/
def chromaRow (nscl : Int) (i : Nat) (height1 : Int) : Int :=
  Int.tdiv (lumaRow nscl i height1) 2

/-- One iteration of the `for` loop of `compressYUVImplPixels`; `ystride` and
`cstride` are the `int` locals, and the products `nscli * ystride` and
`(nscli / 2) * cstride` are `int` products. -/
def setRow (nscl height1 ystride cstride : Int) (p : RowPointers) (i : Nat) : RowPointers :=
  let nscli := lumaRow nscl i height1
  let p1 : RowPointers := { p with y := p.y.set i (toInt32 (nscli * ystride)) }
  if i &&& 1 = 0 then
    let offset := toInt32 (Int.tdiv nscli 2 * cstride)
    { p1 with cb := p1.cb.set (i / 2) offset, cr := p1.cr.set (i / 2) offset }
  else
    p1

/-- The `for (int i = 0; i < kJpegMCUSize; ++i)` loop: the row pointers of the
group that starts at scanline `nscl`.  The `size_t` strides of the image are
narrowed to the `int` locals `ystride` and `cstride` first. -/
def fillRowPointers (image : android_ycbcr) (nscl height1 : Int) : RowPointers :=
  (List.range kJpegMCUSize).foldl
    (setRow nscl height1 (toInt32 (image.ystride : Int)) (toInt32 (image.cstride : Int)))
    { y := List.replicate 16 0, cb := List.replicate 8 0, cr := List.replicate 8 0 }

/-- One call of `jpeg_write_raw_data` as the loop sees it: the scanline the
group starts at, the row pointers handed over and the number of lines. -/
structure Handoff where
  next_scanline : Nat
  planes : RowPointers
  num_lines : Nat
deriving DecidableEq, Repr

/-- The external `jpeg_write_raw_data`: it either fails (returns `0`, the
state is unchanged) or takes the group and advances `next_scanline` by the
16 lines of one iMCU row.  `writeOk` decides which. -/
def jpeg_write_raw_data (writeOk : jpeg_compress_struct → RowPointers → Bool)
    (cinfo : jpeg_compress_struct) (planes : RowPointers) (num_lines : Nat) :
    Nat × jpeg_compress_struct :=
  if writeOk cinfo planes then
    (num_lines, { cinfo with next_scanline := cinfo.next_scanline + num_lines })
  else
    (0, cinfo)

/-- What a run of `compressYUVImplPixels` leaves behind: the returned value,
the encoder state and the handoffs made, in order. -/
structure PixelsRun where
  result : Bool
  cinfo : jpeg_compress_struct
  handoffs : List Handoff
deriving DecidableEq, Repr

/-- The `while (true)` loop of `compressYUVImplPixels`; every iteration uses
one unit of fuel and `none` means the fuel ran out. -/
def compressYUVImplPixels (writeOk : jpeg_compress_struct → RowPointers → Bool)
    (image : android_ycbcr) : Nat → jpeg_compress_struct → Option PixelsRun
  | 0, _ => none
  | fuel + 1, cinfo =>
    let height : Int := (cinfo.image_height : Int)
    let height1 : Int := height - 1
    let nscl : Int := (cinfo.next_scanline : Int)
    if nscl ≥ height then
      some { result := true, cinfo := cinfo, handoffs := [] }
    else
      let planes := fillRowPointers image nscl height1
      let h : Handoff :=
        { next_scanline := cinfo.next_scanline, planes := planes, num_lines := kJpegMCUSize }
      let w := jpeg_write_raw_data writeOk cinfo planes kJpegMCUSize
      if w.1 = 0 then
        some { result := false, cinfo := w.2, handoffs := [h] }
      else
        (compressYUVImplPixels writeOk image fuel w.2).map
          (fun r => { r with handoffs := h :: r.handoffs })

/-- The byte offset of a row as the code computes it: the row index times the
stride narrowed to `int`, as an `int` product. -/
def rowOffset (row : Int) (stride : Nat) : Int := toInt32 (row * toInt32 (stride : Int))

/-- The handoff expected for group `k` of an image of height `H`, written out
slot by slot: it starts at scanline `16 * k`; luma slot `i` is the offset of row
`min (16 * k + i) (H - 1)`, chroma slot `j` the offset of that row for `i = 2 * j`,
halved. -/
def groupAt (image : android_ycbcr) (H k : Nat) : Handoff :=
  { next_scanline := 16 * k,
    planes :=
      { y := (List.range 16).map
          (fun (i : Nat) => rowOffset (min (((16 * k : Nat) : Int) + (i : Int)) ((H : Int) - 1))
            image.ystride),
        cb := (List.range 8).map
          (fun (j : Nat) => rowOffset
            (Int.tdiv (min (((16 * k : Nat) : Int) + ((2 * j : Nat) : Int)) ((H : Int) - 1)) 2)
            image.cstride),
        cr := (List.range 8).map
          (fun (j : Nat) => rowOffset
            (Int.tdiv (min (((16 * k : Nat) : Int) + ((2 * j : Nat) : Int)) ((H : Int) - 1)) 2)
            image.cstride) },
    num_lines := 16 }

/-- Whether the encoder accepts group `k` of an image of height `H`. -/
def groupOk (writeOk : jpeg_compress_struct → RowPointers → Bool) (image : android_ycbcr)
    (H k : Nat) : Bool :=
  writeOk { image_height := H, next_scanline := 16 * k } (groupAt image H k).planes

/-! ## `resizeYUV` -/

/-- The arguments of one call of `libyuv::I420Scale`: the source planes and
size, the destination planes (pointers into `dstData`, strides) and size, and
the size of the vector `dstData` the destination pointers point into. -/
structure ScaleCall where
  src : android_ycbcr
  srcSize : Rect
  dst : android_ycbcr
  dstWidth : Nat
  dstHeight : Nat
  dstDataSize : Nat
deriving DecidableEq, Repr

/-- What the external `libyuv::I420Scale` does on one call: its `int` result
and the byte it leaves at each offset of the destination vector. -/
structure ScaleOutcome where
  result : Int
  bytes : Nat → Nat

/-- What a call of `resizeYUV` leaves behind: the returned descriptor, the
vector `*pDstData`, and the calls of the scale routine it made. -/
structure ResizeRun where
  result : android_ycbcr
  pDstData : List Nat
  scaleCalls : List ScaleCall

/-- The function `resizeYUV`.  Pointers into the fresh vector `dstData` are
offsets from its first byte. -/
def resizeYUV (I420Scale : ScaleCall → ScaleOutcome) (srcYCbCr : android_ycbcr)
    (srcSize dstSize : Rect) (pDstData : List Nat) : ResizeRun :=
  if srcYCbCr.chroma_step ≠ 1 then
    { result := android_ycbcr.zero, pDstData := pDstData, scaleCalls := [] }
  else
    let dstWidth := dstSize.width
    let dstHeight := dstSize.height
    if dstWidth &&& 1 ≠ 0 ∨ dstHeight &&& 1 ≠ 0 then
      { result := android_ycbcr.zero, pDstData := pDstData, scaleCalls := [] }
    else
      let wxh := dstWidth * dstHeight
      let dstDataSize := wxh * 3 / 2
      let dstYCbCr : android_ycbcr :=
        { y := some 0,
          cb := some wxh,
          cr := some (wxh + (wxh >>> 2)),
          ystride := dstWidth,
          cstride := dstHeight / 2,
          chroma_step := 1 }
      let call : ScaleCall :=
        { src := srcYCbCr, srcSize := srcSize, dst := dstYCbCr,
          dstWidth := dstWidth, dstHeight := dstHeight, dstDataSize := dstDataSize }
      let out := I420Scale call
      if out.result ≠ 0 then
        { result := android_ycbcr.zero, pDstData := pDstData, scaleCalls := [call] }
      else
        { result := dstYCbCr,
          pDstData := (List.range dstDataSize).map out.bytes,
          scaleCalls := [call] }

/-- The offset, from the first byte of the destination vector, of the byte a
chroma plane that starts at `plane` addresses at `(row, col)` with row stride
`cstride`. -/
def chromaByte (plane cstride row col : Nat) : Nat := plane + row * cstride + col

/-! ## Metadata lookup -/

/-- The three tags `compressYUV` looks up. -/
inductive Tag where
  | ANDROID_JPEG_THUMBNAIL_SIZE
  | ANDROID_JPEG_THUMBNAIL_QUALITY
  | ANDROID_JPEG_QUALITY
deriving DecidableEq, Repr

/-- A `camera_metadata_ro_entry_t`, reduced to its `data.i32` array. -/
structure camera_metadata_ro_entry_t where
  i32 : Nat → Int

/-- The entry `compressYUV` declares without initialising it; no path reads it
before a lookup that found its tag has overwritten it. -/
def camera_metadata_ro_entry_t.uninit : camera_metadata_ro_entry_t := { i32 := fun _ => 0 }

/-- A metadata record: for each tag, its entry when the record has one. -/
abbrev CameraMetadata := Tag → Option camera_metadata_ro_entry_t

/-- The status `find_camera_metadata_ro_entry` reports for a missing tag
(`-ENOENT`). -/
def NOT_FOUND : Int := -2

/-- The external `find_camera_metadata_ro_entry`: status `0` and the entry
written for a tag the record has, a non-zero status and the entry left as it
was otherwise. -/
def find_camera_metadata_ro_entry (metadata : CameraMetadata) (tag : Tag)
    (entry : camera_metadata_ro_entry_t) : Int × camera_metadata_ro_entry_t :=
  match metadata tag with
  | some e => (0, e)
  | none => (NOT_FOUND, entry)

/-! ## The sink and the trailer -/

/-- The `StaticBufferSink`: where the next byte goes and how many bytes the
encoder may still write. -/
structure StaticBufferSink where
  next_output_byte : Option Nat
  free_in_buffer : Nat
deriving DecidableEq, Repr

/-- The constructor `StaticBufferSink(dst, dstCapacity)`. -/
def StaticBufferSink.new (dst : Option Nat) (dstCapacity : Nat) : StaticBufferSink :=
  { next_output_byte := dst, free_in_buffer := dstCapacity }

/-- The callback `emptyOutputBufferS`: it never provides more room. -/
def StaticBufferSink.emptyOutputBufferS : Nat := 0

/-- Modelled from the spec: `sizeof(struct camera3_jpeg_blob)`; the struct is
declared in `hardware/camera3.h`, outside the sources at hand.  The trailer is a
fixed-size record of a magic constant and a 32-bit payload length, 8 bytes. -/
def sizeofCamera3JpegBlob : Nat := 8

/-- Modelled from the spec: the magic constant `CAMERA3_JPEG_BLOB_ID` that
identifies the trailer.  It is declared in `hardware/camera3.h`, outside the
sources at hand; no property below depends on its value. -/
def CAMERA3_JPEG_BLOB_ID : Nat := 0x00FF

/-! ## `compressYUVImpl` -/

/-- The arguments of one call of `compressYUVImpl`: image, size, the raw EXIF
blob (`none` for `nullptr`, else its size), quality, and the sink as it was
constructed. -/
structure EncodeCall where
  image : android_ycbcr
  imageSize : Rect
  rawExif : Option Nat
  quality : Int
  sink : StaticBufferSink
deriving DecidableEq, Repr

/-- What one call of `compressYUVImpl` leaves behind.  `exited` says that the
process ended inside the call (libjpeg's standard `error_exit` calls `exit`);
the call then returns nothing and `result` is `false`.  Otherwise `result` is
the returned value.  `free_in_buffer` is that of the sink. -/
structure EncodeOutcome where
  result : Bool
  free_in_buffer : Nat
  exited : Bool := false
deriving DecidableEq, Repr

/-- The routine the field `error_exit` of the error manager points to: the
handler `onJpegErrorS` of `JpegErrorMgr`, which logs and jumps back with
`longjmp`, or libjpeg's standard routine, which prints the message and calls
`exit`. -/
inductive ErrorExit where
  | onJpegErrorS
  | standard
deriving DecidableEq, Repr

/-- The `JpegErrorMgr` (a `jpeg_error_mgr`), reduced to its `error_exit`. -/
structure JpegErrorMgr where
  error_exit : ErrorExit
deriving DecidableEq, Repr

/-- The constructor `JpegErrorMgr()`: `error_exit = &onJpegErrorS`. -/
def JpegErrorMgr.new : JpegErrorMgr := { error_exit := ErrorExit.onJpegErrorS }

/-- The external `jpeg_std_error`: it fills the error manager it is given with
libjpeg's standard routines, `error_exit` among them, and returns it. -/
def jpeg_std_error (err : JpegErrorMgr) : JpegErrorMgr :=
  { err with error_exit := ErrorExit.standard }

/-- The external libjpeg as one call of `compressYUVImpl` meets it.  For
`jpeg_start_compress`, `jpeg_write_marker` and `jpeg_finish_compress` the
value says whether the routine returns (`true`) or reports an error through
`error_exit` (`false`); for `jpeg_write_raw_data` it says whether the handoff
is accepted (a handoff that is not accepted returns `0`);
`jpeg_write_raw_data_error` says whether libjpeg reports an error through
`error_exit` inside a handoff of this call, for instance when the frame header
does not fit the sink; `free_in_buffer` is what the library leaves in the
sink. -/
structure LibJpeg where
  jpeg_start_compress : EncodeCall → Bool
  jpeg_write_marker : EncodeCall → Bool
  jpeg_write_raw_data : EncodeCall → jpeg_compress_struct → RowPointers → Bool
  jpeg_write_raw_data_error : EncodeCall → Bool
  jpeg_finish_compress : EncodeCall → Bool
  free_in_buffer : EncodeCall → Nat

/-- How a call of `compressYUVImpl` ends: it returns a value, or the process
ends inside it. -/
inductive EncodeStatus where
  | returned (result : Bool)
  | exited
deriving DecidableEq, Repr

/-- What an error reported by libjpeg leads to: with the handler of
`JpegErrorMgr` the `longjmp` makes `setjmp` return non-zero, the encoder is
destroyed and `compressYUVImpl` returns `FAILURE(false)`; with the standard
routine the process ends. -/
def onLibraryError (err : JpegErrorMgr) : EncodeStatus :=
  match err.error_exit with
  | ErrorExit.onJpegErrorS => EncodeStatus.returned false
  | ErrorExit.standard => EncodeStatus.exited

/-- The external `jpeg_finish_compress`: it reports an error when fewer
scanlines than `image_height` were written, and otherwise does what the
library does on this call. -/
def jpeg_finish_compress (lib : LibJpeg) (call : EncodeCall) (cinfo : jpeg_compress_struct) :
    Bool :=
  decide (cinfo.image_height ≤ cinfo.next_scanline) && lib.jpeg_finish_compress call

/-- The control flow of `compressYUVImpl`: the error manager is constructed and
then passed through `jpeg_std_error`; after `setjmp` come `jpeg_start_compress`,
`jpeg_write_marker` when there is a raw EXIF blob, `compressYUVImplPixels`, and
`jpeg_finish_compress`.  An error reported inside a handoff leaves the loop
through `error_exit`.  The loop gets more fuel than it has groups, so the branch
for `none` is never taken. -/
def compressYUVImplStatus (lib : LibJpeg) (call : EncodeCall) : EncodeStatus :=
  let err := jpeg_std_error JpegErrorMgr.new
  let cinfo : jpeg_compress_struct :=
    { image_height := call.imageSize.height, next_scanline := 0 }
  if !lib.jpeg_start_compress call then
    onLibraryError err
  else if call.rawExif.isSome && !lib.jpeg_write_marker call then
    onLibraryError err
  else if lib.jpeg_write_raw_data_error call then
    onLibraryError err
  else
    match compressYUVImplPixels (lib.jpeg_write_raw_data call) call.image
        (call.imageSize.height + 1) cinfo with
    | none => EncodeStatus.exited
    | some run =>
      if !jpeg_finish_compress lib call run.cinfo then
        onLibraryError err
      else
        EncodeStatus.returned run.result

/-- The function `compressYUVImpl`, as `compressYUV` observes it. -/
def compressYUVImpl (lib : LibJpeg) (call : EncodeCall) : EncodeOutcome :=
  { result :=
      match compressYUVImplStatus lib call with
      | EncodeStatus.returned r => r
      | EncodeStatus.exited => false,
    free_in_buffer := lib.free_in_buffer call,
    exited :=
      match compressYUVImplStatus lib call with
      | EncodeStatus.returned _ => false
      | EncodeStatus.exited => true }

/-! ## External stages and the trace -/

/-- The collaborators of `compressYUV`: libjpeg, the scaler, and the EXIF
routines.  `createExifData` says whether `exif::createExifData` returned a
container, `exifDataAllocThumbnail` whether the thumbnail allocation of the
given size returned a pointer, and `exif_data_save_data` maps the size of the
attached thumbnail (`none` when there is none) to the size of the serialized
buffer (`none` for `nullptr`). -/
structure Externals where
  createExifData : Bool
  I420Scale : ScaleCall → ScaleOutcome
  libjpeg : LibJpeg
  exifDataAllocThumbnail : Nat → Bool
  exif_data_save_data : Option Nat → Option Nat

/-- A call of `compressYUVImpl` with the libjpeg of the collaborators. -/
def Externals.compressYUVImpl (ext : Externals) (call : EncodeCall) : EncodeOutcome :=
  Jpeg.compressYUVImpl ext.libjpeg call

/-- The observable steps of `HwCamera::compressJpeg` and `compressYUV`. -/
inductive Event where
  | lockYCbCr (ok : Bool)
  | lock (ok : Bool)
  | unlockBuffer
  | unlockImage
  | createExifData (ok : Bool)
  | resizeYUV (dstSize : Rect) (scaleCalls : List ScaleCall) (ok : Bool)
  | compressThumbnail (call : EncodeCall) (out : EncodeOutcome)
  | exifDataAllocThumbnail (size : Nat) (ok : Bool)
  | memcpyThumbnail (size : Nat)
  | exif_data_save_data (rawExif : Option Nat)
  | compressMain (call : EncodeCall) (out : EncodeOutcome)
  | memcpyBlob (offset : Nat) (jpeg_blob_id : Nat) (jpeg_size : Nat)
  | free
deriving DecidableEq, Repr

/-- The stages of the operation. -/
inductive Stage where
  | exifBuild
  | scale
  | compressThumbnail
  | attachThumbnail
  | serializeExif
  | compressMain
  | writeTrailer
deriving DecidableEq, Repr

/-- The stage an event belongs to and whether the stage succeeded; `none` for
the events that are not a stage of their own (locks, the copy that follows a
thumbnail allocation, `free`). -/
def Event.stage : Event → Option (Stage × Bool)
  | .createExifData ok => some (.exifBuild, ok)
  | .resizeYUV _ _ ok => some (.scale, ok)
  | .compressThumbnail _ out => some (.compressThumbnail, out.result)
  | .exifDataAllocThumbnail _ ok => some (.attachThumbnail, ok)
  | .exif_data_save_data rawExif => some (.serializeExif, rawExif.isSome)
  | .compressMain _ out => some (.compressMain, out.result)
  | .memcpyBlob _ _ _ => some (.writeTrailer, true)
  | _ => none

/-- The stages of a trace, in order, each with its outcome. -/
def stagesOf (trace : List Event) : List (Stage × Bool) := trace.filterMap Event.stage

/-! ## `compressYUV` -/

/-- How the `do { ... } while (false)` block of `compressYUV` ends: by a
`break`, by running to its end with a thumbnail of the given size attached, by
`return FAILURE(false)`, or with the process ended inside the thumbnail
pass. -/
inductive ThumbnailOutcome where
  | skipped
  | attached (thumbnailJpegSize : Nat)
  | failed
  | exited
deriving DecidableEq, Repr

/-- The state after the `do { ... } while (false)` block. -/
structure ThumbnailRun where
  outcome : ThumbnailOutcome
  trace : List Event
  metadataEntry : camera_metadata_ro_entry_t

/-- The `do { ... } while (false)` block of `compressYUV`. -/
def thumbnailBlock (ext : Externals) (image : android_ycbcr) (imageSize : Rect)
    (metadata : CameraMetadata) (jpegData : Option Nat) (jpegDataCapacity : Nat)
    (metadataEntry : camera_metadata_ro_entry_t) : ThumbnailRun :=
  let f1 := find_camera_metadata_ro_entry metadata Tag.ANDROID_JPEG_THUMBNAIL_SIZE metadataEntry
  if f1.1 ≠ 0 then
    { outcome := .skipped, trace := [], metadataEntry := f1.2 }
  else
    let thumbnailSize : Rect :=
      { width := toUInt16 (f1.2.i32 0), height := toUInt16 (f1.2.i32 1) }
    if (thumbnailSize.width : Int) ≤ 0 ∨ (thumbnailSize.height : Int) ≤ 0 then
      { outcome := .skipped, trace := [], metadataEntry := f1.2 }
    else
      let f2 := find_camera_metadata_ro_entry metadata Tag.ANDROID_JPEG_THUMBNAIL_QUALITY f1.2
      if f2.1 ≠ 0 then
        { outcome := .skipped, trace := [], metadataEntry := f2.2 }
      else
        let thumbnailQuality : Int := f2.2.i32 0
        if thumbnailQuality ≤ 0 then
          { outcome := .skipped, trace := [], metadataEntry := f2.2 }
        else
          let r := resizeYUV ext.I420Scale image imageSize thumbnailSize []
          if r.result.y.isNone then
            { outcome := .failed,
              trace := [.resizeYUV thumbnailSize r.scaleCalls false],
              metadataEntry := f2.2 }
          else
            let call : EncodeCall :=
              { image := r.result, imageSize := thumbnailSize, rawExif := none,
                quality := thumbnailQuality,
                sink := StaticBufferSink.new jpegData jpegDataCapacity }
            let out := ext.compressYUVImpl call
            if out.exited then
              { outcome := .exited,
                trace := [.resizeYUV thumbnailSize r.scaleCalls true,
                          .compressThumbnail call out],
                metadataEntry := f2.2 }
            else if !out.result then
              { outcome := .failed,
                trace := [.resizeYUV thumbnailSize r.scaleCalls true,
                          .compressThumbnail call out],
                metadataEntry := f2.2 }
            else
              let thumbnailJpegSize := sizeSub jpegDataCapacity out.free_in_buffer
              if !ext.exifDataAllocThumbnail thumbnailJpegSize then
                { outcome := .failed,
                  trace := [.resizeYUV thumbnailSize r.scaleCalls true,
                            .compressThumbnail call out,
                            .exifDataAllocThumbnail thumbnailJpegSize false],
                  metadataEntry := f2.2 }
              else
                { outcome := .attached thumbnailJpegSize,
                  trace := [.resizeYUV thumbnailSize r.scaleCalls true,
                            .compressThumbnail call out,
                            .exifDataAllocThumbnail thumbnailJpegSize true,
                            .memcpyThumbnail thumbnailJpegSize],
                  metadataEntry := f2.2 }

/-- What a call leaves behind: the trace of events and, when `exited` is
`false`, the returned value.  `exited` says that the process ended inside the
call; nothing is returned then and `result` is `false`. -/
structure CompressRun where
  result : Bool
  trace : List Event
  exited : Bool

/-- The part of `compressYUV` after the `do { ... } while (false)` block: the
quality lookup, serialization, the main pass, the trailer and `free`.
`exifThumbnail` is the size of the thumbnail attached to the container. -/
def compressMainPart (ext : Externals) (image : android_ycbcr) (imageSize : Rect)
    (metadata : CameraMetadata) (jpegData : Option Nat) (jpegDataCapacity : Nat)
    (metadataEntry : camera_metadata_ro_entry_t) (exifThumbnail : Option Nat) : CompressRun :=
  let f := find_camera_metadata_ro_entry metadata Tag.ANDROID_JPEG_QUALITY metadataEntry
  let quality : Int := if f.1 ≠ 0 then 85 else f.2.i32 0
  match ext.exif_data_save_data exifThumbnail with
  | none => { result := false, trace := [.exif_data_save_data none], exited := false }
  | some rawExifSize =>
    let jpegImageDataCapacity := sizeSub jpegDataCapacity sizeofCamera3JpegBlob
    let call : EncodeCall :=
      { image := image, imageSize := imageSize, rawExif := some rawExifSize,
        quality := quality, sink := StaticBufferSink.new jpegData jpegImageDataCapacity }
    let out := ext.compressYUVImpl call
    if out.exited then
      { result := false,
        trace := [.exif_data_save_data (some rawExifSize),
                  .compressMain call out],
        exited := true }
    else if out.result then
      { result := true,
        trace := [.exif_data_save_data (some rawExifSize),
                  .compressMain call out,
                  .memcpyBlob jpegImageDataCapacity CAMERA3_JPEG_BLOB_ID
                    (toUInt32 (sizeSub jpegImageDataCapacity out.free_in_buffer)),
                  .free],
        exited := false }
    else
      { result := false,
        trace := [.exif_data_save_data (some rawExifSize),
                  .compressMain call out,
                  .free],
        exited := false }

/-- The function `compressYUV`.  Offsets into the destination are counted from
`jpegData`. -/
def compressYUV (ext : Externals) (image : android_ycbcr) (imageSize : Rect)
    (metadata : CameraMetadata) (jpegData : Option Nat) (jpegDataCapacity : Nat) :
    CompressRun :=
  if image.chroma_step ≠ 1 then
    { result := false, trace := [], exited := false }
  else if !ext.createExifData then
    { result := false, trace := [.createExifData false], exited := false }
  else
    let tb := thumbnailBlock ext image imageSize metadata jpegData jpegDataCapacity
      camera_metadata_ro_entry_t.uninit
    match tb.outcome with
    | .failed =>
      { result := false, trace := .createExifData true :: tb.trace, exited := false }
    | .exited =>
      { result := false, trace := .createExifData true :: tb.trace, exited := true }
    | .skipped =>
      let m := compressMainPart ext image imageSize metadata jpegData jpegDataCapacity
        tb.metadataEntry none
      { result := m.result, trace := .createExifData true :: (tb.trace ++ m.trace),
        exited := m.exited }
    | .attached n =>
      let m := compressMainPart ext image imageSize metadata jpegData jpegDataCapacity
        tb.metadataEntry (some n)
      { result := m.result, trace := .createExifData true :: (tb.trace ++ m.trace),
        exited := m.exited }

/-! ## `HwCamera::compressJpeg` -/

/-- The external `GraphicBufferMapper`: the descriptor `imageYcbcr` as
`lockYCbCr` leaves it and the pointer `jpegData` as `lock` leaves it.  A lock
that fails leaves the null pointer the caller put there. -/
structure GraphicBufferMapper where
  lockYCbCr : android_ycbcr
  lock : Option Nat

/-- Conversion of the `int32_t bufferSize` to the `size_t` parameter of
`compressYUV`. -/
def toSizeT (x : Int) : Nat := (x % 2 ^ sizeBits).toNat

/-- The function `HwCamera::compressJpeg`; `result` is the value passed to
`csb->finish`.  When the process ends inside `compressYUV` the two `unlock`
calls after it are not reached. -/
def compressJpeg (gbm : GraphicBufferMapper) (ext : Externals) (bufferSize : Int)
    (size : Rect) (metadata : CameraMetadata) : CompressRun :=
  let imageYcbcr := gbm.lockYCbCr
  if imageYcbcr.y.isNone then
    { result := false, trace := [.lockYCbCr false], exited := false }
  else
    let jpegData := gbm.lock
    if jpegData.isNone then
      { result := false, trace := [.lockYCbCr true, .lock false, .unlockImage],
        exited := false }
    else
      let r := compressYUV ext imageYcbcr size metadata jpegData (toSizeT bufferSize)
      if r.exited then
        { result := false, trace := [.lockYCbCr true, .lock true] ++ r.trace, exited := true }
      else
        { result := r.result,
          trace := [.lockYCbCr true, .lock true] ++ r.trace ++ [.unlockBuffer, .unlockImage],
          exited := false }

/-! ## Summaries used to state the properties -/

/-- Whether the `do { ... } while (false)` block gets past its four `break`s:
both tags are present, the width and the height stored in the `uint16_t`
rectangle are not zero, and the quality is positive. -/
def thumbnailRequested (metadata : CameraMetadata) : Bool :=
  match metadata Tag.ANDROID_JPEG_THUMBNAIL_SIZE, metadata Tag.ANDROID_JPEG_THUMBNAIL_QUALITY with
  | some s, some q =>
    decide (toUInt16 (s.i32 0) ≠ 0) && decide (toUInt16 (s.i32 1) ≠ 0) && decide (0 < q.i32 0)
  | _, _ => false

/-- The stages of a complete operation, in order; the three thumbnail stages
are there when the thumbnail is requested. -/
def canonicalStages (thumbnail : Bool) : List Stage :=
  Stage.exifBuild ::
    ((if thumbnail then [Stage.scale, Stage.compressThumbnail, Stage.attachThumbnail] else []) ++
      [Stage.serializeExif, Stage.compressMain, Stage.writeTrailer])

/-- The resources of `HwCamera::compressJpeg` that are held at a point of a
trace: the source mapping, the destination mapping, the serialized EXIF
buffer. -/
structure Held where
  image : Bool
  buffer : Bool
  rawExif : Bool
deriving DecidableEq, Repr

/-- One step of the monitor for the resource discipline: an acquisition of a
resource that is already held, or a release of one that is not held, gives
`none`; events that neither acquire nor release leave the state as it is. -/
def Held.step (held : Held) : Event → Option Held
  | Event.lockYCbCr true => if held.image then none else some { held with image := true }
  | Event.lock true => if held.buffer then none else some { held with buffer := true }
  | Event.exif_data_save_data (some _) =>
    if held.rawExif then none else some { held with rawExif := true }
  | Event.unlockImage => if held.image then some { held with image := false } else none
  | Event.unlockBuffer => if held.buffer then some { held with buffer := false } else none
  | Event.free => if held.rawExif then some { held with rawExif := false } else none
  | _ => some held

/-- The monitor run over a trace, from the resources held at its start. -/
def monitor : List Event → Held → Option Held
  | [], held => some held
  | e :: rest, held => (held.step e).bind (monitor rest)

/-- Whether an event is a serialization that produced a buffer. -/
def Event.isSerialized : Event → Bool
  | .exif_data_save_data (some _) => true
  | _ => false

/-- The quality the main pass is called with, read off the metadata record:
the value of the JPEG-quality tag when the record has it, `85` otherwise. -/
def qualityOf (metadata : CameraMetadata) : Int :=
  match metadata Tag.ANDROID_JPEG_QUALITY with
  | some e => e.i32 0
  | none => 85

/-! ## Concrete inputs -/

/-- A 640x480 source image with tightly packed chroma. -/
def exampleImage : android_ycbcr :=
  { y := some 0, cb := some 307200, cr := some 384000,
    ystride := 640, cstride := 320, chroma_step := 1 }

/-- A 65535x65535 source image with tightly packed rows: a luma plane of
4294836225 bytes and chroma planes of 32768 rows of 32768 bytes. -/
def hugeImage : android_ycbcr :=
  { y := some 0, cb := some 4294836225, cr := some 5368578049,
    ystride := 65535, cstride := 32768, chroma_step := 1 }

/-- A 65500x65500 source image with tightly packed rows, the largest size
libjpeg takes. -/
def largestImage : android_ycbcr :=
  { y := some 0, cb := some 4290250000, cr := some 5362812500,
    ystride := 65500, cstride := 32750, chroma_step := 1 }

/-- The size of `exampleImage`. -/
def exampleSize : Rect := { width := 640, height := 480 }

/-- A metadata entry with the given first two `i32` values. -/
def entryOf (a b : Int) : camera_metadata_ro_entry_t :=
  { i32 := fun k => if k = 0 then a else if k = 1 then b else 0 }

/-- A metadata record without any of the three tags. -/
def noTags : CameraMetadata := fun _ => none

/-- A metadata record with thumbnail size `w x h`, thumbnail quality `tq` and
JPEG quality `q`. -/
def tagsOf (w h tq q : Int) : CameraMetadata
  | Tag.ANDROID_JPEG_THUMBNAIL_SIZE => some (entryOf w h)
  | Tag.ANDROID_JPEG_THUMBNAIL_QUALITY => some (entryOf tq 0)
  | Tag.ANDROID_JPEG_QUALITY => some (entryOf q 0)

/-- Collaborators that all succeed: the scaler returns `0`, libjpeg accepts
every call and every pass writes `written` bytes into its sink (or fills it
when it is smaller), the serialized EXIF has 64 bytes more than the attached
thumbnail. -/
def goodExternals (written : Nat) : Externals :=
  { createExifData := true,
    I420Scale := fun _ => { result := 0, bytes := fun _ => 0 },
    libjpeg :=
      { jpeg_start_compress := fun _ => true,
        jpeg_write_marker := fun _ => true,
        jpeg_write_raw_data := fun _ _ _ => true,
        jpeg_write_raw_data_error := fun _ => false,
        jpeg_finish_compress := fun _ => true,
        free_in_buffer := fun call => call.sink.free_in_buffer - written },
    exifDataAllocThumbnail := fun _ => true,
    exif_data_save_data := fun t => some (64 + t.getD 0) }

/-- Collaborators as `goodExternals`, but the sink is too small for the image:
it takes the headers and the marker, but the first group of rows fills it and
`jpeg_write_raw_data` refuses the handoff (it returns `0`). -/
def fullSinkExternals : Externals :=
  { goodExternals 0 with
    libjpeg :=
      { jpeg_start_compress := fun _ => true,
        jpeg_write_marker := fun _ => true,
        jpeg_write_raw_data := fun _ _ _ => false,
        jpeg_write_raw_data_error := fun _ => false,
        jpeg_finish_compress := fun _ => true,
        free_in_buffer := fun _ => 0 } }

/-- The call of the main pass for `exampleImage` without any tag, with a sink
of the given capacity. -/
def exampleMainCall (capacity : Nat) : EncodeCall :=
  { image := exampleImage, imageSize := exampleSize, rawExif := some 64, quality := 85,
    sink := { next_output_byte := some 0, free_in_buffer := capacity } }

/-- A mapper whose two locks succeed. -/
def goodMapper : GraphicBufferMapper := { lockYCbCr := exampleImage, lock := some 0 }

end Jpeg

namespace Jpeg

/-! ## Row pointers of one group -/

theorem toInt32_of_fits (x : Int) (h0 : -2147483648 ≤ x) (h1 : x < 2147483648) :
    toInt32 x = x := by
  unfold toInt32
  omega

theorem rowOffset_of_fits (row stride : Nat) (h : row * stride < 2147483648) :
    rowOffset (row : Int) stride = ((row * stride : Nat) : Int) := by
  unfold rowOffset
  rcases Nat.eq_zero_or_pos row with h0 | h0
  · subst h0
    simp [toInt32]
  · have hs : stride ≤ row * stride := Nat.le_mul_of_pos_left stride h0
    have h1 : toInt32 (stride : Int) = (stride : Int) := toInt32_of_fits _ (by omega) (by omega)
    rw [h1]
    have h2 : (row : Int) * (stride : Int) = ((row * stride : Nat) : Int) := by push_cast; ring
    rw [h2]
    exact toInt32_of_fits _ (by omega) (by omega)

theorem fillRowPointers_eq (image : android_ycbcr) (nscl height1 : Int) :
    fillRowPointers image nscl height1 =
      { y := (List.range 16).map
          (fun (i : Nat) => rowOffset (lumaRow nscl i height1) image.ystride),
        cb := (List.range 8).map
          (fun (j : Nat) => rowOffset (chromaRow nscl (2 * j) height1) image.cstride),
        cr := (List.range 8).map
          (fun (j : Nat) => rowOffset (chromaRow nscl (2 * j) height1) image.cstride) } := by
  rfl

/-- The row pointers the `for` loop computes at scanline `16 * k` are those of
the expected handoff, slot by slot. -/
theorem groupAt_planes (image : android_ycbcr) (H k : Nat) :
    fillRowPointers image ((16 * k : Nat) : Int) ((H : Int) - 1) = (groupAt image H k).planes := by
  rfl

theorem fillRowPointers_y (image : android_ycbcr) (nscl height1 : Int) (i : Nat) (hi : i < 16) :
    (fillRowPointers image nscl height1).y[i]? =
      some (rowOffset (lumaRow nscl i height1) image.ystride) := by
  rw [fillRowPointers_eq]
  simp [List.getElem?_range, hi]

theorem fillRowPointers_cb (image : android_ycbcr) (nscl height1 : Int) (i : Nat) (hi : i < 16)
    (he : i % 2 = 0) :
    (fillRowPointers image nscl height1).cb[i / 2]? =
      some (rowOffset (chromaRow nscl i height1) image.cstride) := by
  rw [fillRowPointers_eq]
  have h8 : i / 2 < 8 := by omega
  have h2 : 2 * (i / 2) = i := by omega
  simp [List.getElem?_range, h8, h2]

theorem fillRowPointers_cr (image : android_ycbcr) (nscl height1 : Int) (i : Nat) (hi : i < 16)
    (he : i % 2 = 0) :
    (fillRowPointers image nscl height1).cr[i / 2]? =
      some (rowOffset (chromaRow nscl i height1) image.cstride) := by
  rw [fillRowPointers_eq]
  have h8 : i / 2 < 8 := by omega
  have h2 : 2 * (i / 2) = i := by omega
  simp [List.getElem?_range, h8, h2]

theorem chromaRow_eq_half (nscl : Int) (i : Nat) (height1 : Int)
    (h : 0 ≤ lumaRow nscl i height1) :
    chromaRow nscl i height1 = lumaRow nscl i height1 / 2 := by
  unfold chromaRow
  exact Int.tdiv_eq_ediv h (by decide)

/-- Every handoff of a run of the loop starts at a scanline below the image
height and carries the row pointers the `for` loop computes there. -/
theorem compressYUVImplPixels_handoffs (writeOk : jpeg_compress_struct → RowPointers → Bool)
    (image : android_ycbcr) (fuel : Nat) :
    ∀ (cinfo : jpeg_compress_struct) (run : PixelsRun),
      compressYUVImplPixels writeOk image fuel cinfo = some run →
      ∀ h ∈ run.handoffs,
        h.next_scanline < cinfo.image_height ∧
        h.planes = fillRowPointers image (h.next_scanline : Int)
          ((cinfo.image_height : Int) - 1) := by
  induction fuel with
  | zero => intro cinfo run hrun; simp [compressYUVImplPixels] at hrun
  | succ fuel ih =>
    intro cinfo run hrun h hh
    simp only [compressYUVImplPixels] at hrun
    split at hrun
    · cases hrun
      simp at hh
    · rename_i hlt
      have hlt2 : cinfo.next_scanline < cinfo.image_height := by omega
      split at hrun
      · cases hrun
        simp at hh
        subst hh
        exact ⟨hlt2, rfl⟩
      · rename_i hw
        have hw2 : (jpeg_write_raw_data writeOk cinfo
            (fillRowPointers image (cinfo.next_scanline : Int) ((cinfo.image_height : Int) - 1))
            kJpegMCUSize).2.image_height = cinfo.image_height := by
          unfold jpeg_write_raw_data
          split <;> rfl
        cases hrec : compressYUVImplPixels writeOk image fuel
            (jpeg_write_raw_data writeOk cinfo
              (fillRowPointers image (cinfo.next_scanline : Int)
                ((cinfo.image_height : Int) - 1)) kJpegMCUSize).2 with
        | none => rw [hrec] at hrun; simp at hrun
        | some r =>
          rw [hrec] at hrun
          simp at hrun
          subst hrun
          simp at hh
          rcases hh with hh | hh
          · subst hh
            exact ⟨hlt2, rfl⟩
          · have := ih _ r hrec h hh
            rw [hw2] at this
            exact this

/-- The row indices of a group: for an image of height `H >= 1` and a slot
`i < 16`, the luma row index is `min (nscl + i) (H - 1)`, which is `nscl + i`
when that row exists and `H - 1` otherwise and lies in `[0, H - 1]`; the chroma
row index is that halved, at most `(H - 1) / 2`.  The pointer of the slot is the
code's offset of that row, which is the row index times the stride when the
product fits an `int`. -/
theorem compressYUVImplPixels_row_indices (image : android_ycbcr) (H nscl i : Nat)
    (hH : 1 ≤ H) (hi : i < 16) :
    (fillRowPointers image (nscl : Int) ((H : Int) - 1)).y[i]? =
        some (rowOffset (lumaRow (nscl : Int) i ((H : Int) - 1)) image.ystride) ∧
    lumaRow (nscl : Int) i ((H : Int) - 1) = ((min (nscl + i) (H - 1) : Nat) : Int) ∧
    (nscl + i ≤ H - 1 → lumaRow (nscl : Int) i ((H : Int) - 1) = ((nscl + i : Nat) : Int)) ∧
    (H - 1 < nscl + i → lumaRow (nscl : Int) i ((H : Int) - 1) = ((H - 1 : Nat) : Int)) ∧
    0 ≤ lumaRow (nscl : Int) i ((H : Int) - 1) ∧
    lumaRow (nscl : Int) i ((H : Int) - 1) ≤ (H : Int) - 1 ∧
    (i % 2 = 0 →
      (fillRowPointers image (nscl : Int) ((H : Int) - 1)).cb[i / 2]? =
          some (rowOffset (chromaRow (nscl : Int) i ((H : Int) - 1)) image.cstride) ∧
      (fillRowPointers image (nscl : Int) ((H : Int) - 1)).cr[i / 2]? =
          some (rowOffset (chromaRow (nscl : Int) i ((H : Int) - 1)) image.cstride) ∧
      chromaRow (nscl : Int) i ((H : Int) - 1) = lumaRow (nscl : Int) i ((H : Int) - 1) / 2 ∧
      0 ≤ chromaRow (nscl : Int) i ((H : Int) - 1) ∧
      chromaRow (nscl : Int) i ((H : Int) - 1) ≤ ((H : Int) - 1) / 2) ∧
    ((H - 1) * image.ystride < 2147483648 →
      (fillRowPointers image (nscl : Int) ((H : Int) - 1)).y[i]? =
        some ((((min (nscl + i) (H - 1)) * image.ystride : Nat)) : Int)) := by
  have hl : lumaRow (nscl : Int) i ((H : Int) - 1) = ((min (nscl + i) (H - 1) : Nat) : Int) := by
    unfold lumaRow
    omega
  have h0 : 0 ≤ lumaRow (nscl : Int) i ((H : Int) - 1) := by rw [hl]; omega
  have hc := chromaRow_eq_half (nscl : Int) i ((H : Int) - 1) h0
  refine ⟨fillRowPointers_y image _ _ i hi, hl, ?_, ?_, h0, ?_, ?_, ?_⟩
  · intro h; rw [hl]; omega
  · intro h; rw [hl]; omega
  · rw [hl]; omega
  · intro he
    refine ⟨fillRowPointers_cb image _ _ i hi he, fillRowPointers_cr image _ _ i hi he, hc, ?_, ?_⟩
    · rw [hc]; omega
    · rw [hc, hl]; omega
  · intro hfit
    rw [fillRowPointers_y image _ _ i hi, hl]
    have hle : min (nscl + i) (H - 1) * image.ystride ≤ (H - 1) * image.ystride :=
      Nat.mul_le_mul_right _ (Nat.min_le_right _ _)
    rw [rowOffset_of_fits _ _ (by omega)]

/-- For an image height that fits the `uint16_t` it comes from, every value the
loop computes for a row index fits an `int`. -/
theorem lumaRow_fits_int (H nscl i : Nat) (hH : H ≤ 65535) (hn : nscl < H) (hi : i < 16) :
    (nscl : Int) + (i : Int) < 2 ^ 31 ∧ -(2 ^ 31) ≤ (H : Int) - 1 ∧
    0 ≤ lumaRow (nscl : Int) i ((H : Int) - 1) ∧
    lumaRow (nscl : Int) i ((H : Int) - 1) < 2 ^ 31 := by
  unfold lumaRow
  omega

/-! ## The loop of `compressYUVImplPixels` -/

theorem compressYUVImplPixels_step_done (writeOk : jpeg_compress_struct → RowPointers → Bool)
    (image : android_ycbcr) (fuel H nscl : Nat) (h : H ≤ nscl) :
    compressYUVImplPixels writeOk image (fuel + 1) { image_height := H, next_scanline := nscl } =
      some { result := true, cinfo := { image_height := H, next_scanline := nscl },
             handoffs := [] } := by
  have h2 : (nscl : Int) ≥ (H : Int) := by omega
  simp [compressYUVImplPixels, h2]

theorem compressYUVImplPixels_step_fail (writeOk : jpeg_compress_struct → RowPointers → Bool)
    (image : android_ycbcr) (fuel H k : Nat) (h : 16 * k < H)
    (hw : groupOk writeOk image H k = false) :
    compressYUVImplPixels writeOk image (fuel + 1)
        { image_height := H, next_scanline := 16 * k } =
      some { result := false, cinfo := { image_height := H, next_scanline := 16 * k },
             handoffs := [groupAt image H k] } := by
  have h2 : ¬ ((16 * k : Nat) : Int) ≥ (H : Int) := by omega
  unfold groupOk at hw
  simp only [compressYUVImplPixels, h2]
  simp only [jpeg_write_raw_data]
  rw [groupAt_planes]
  simp only [hw, Bool.false_eq_true, if_false, if_true]
  rfl

theorem compressYUVImplPixels_step_ok (writeOk : jpeg_compress_struct → RowPointers → Bool)
    (image : android_ycbcr) (fuel H k : Nat) (h : 16 * k < H)
    (hw : groupOk writeOk image H k = true) :
    compressYUVImplPixels writeOk image (fuel + 1)
        { image_height := H, next_scanline := 16 * k } =
      (compressYUVImplPixels writeOk image fuel
          { image_height := H, next_scanline := 16 * (k + 1) }).map
        (fun r => { r with handoffs := groupAt image H k :: r.handoffs }) := by
  have h2 : ¬ ((16 * k : Nat) : Int) ≥ (H : Int) := by omega
  have h16 : ¬ (kJpegMCUSize = 0) := by decide
  have e : 16 * (k + 1) = 16 * k + kJpegMCUSize := by unfold kJpegMCUSize; omega
  unfold groupOk at hw
  simp only [compressYUVImplPixels, h2]
  simp only [jpeg_write_raw_data]
  rw [groupAt_planes]
  simp only [hw, if_true, if_false, h16]
  rw [e]
  rfl

/-- When the encoder accepts every remaining group, the loop started at group
`j` hands over the groups `j, j + 1, ..., n - 1` and returns `true`. -/
theorem compressYUVImplPixels_all_ok (writeOk : jpeg_compress_struct → RowPointers → Bool)
    (image : android_ycbcr) (H : Nat) :
    ∀ (fuel j : Nat), j ≤ (H + 15) / 16 → (H + 15) / 16 - j < fuel →
      (∀ k, j ≤ k → k < (H + 15) / 16 → groupOk writeOk image H k = true) →
      compressYUVImplPixels writeOk image fuel { image_height := H, next_scanline := 16 * j } =
        some { result := true,
               cinfo := { image_height := H, next_scanline := 16 * ((H + 15) / 16) },
               handoffs := (List.range' j ((H + 15) / 16 - j)).map (groupAt image H) } := by
  intro fuel
  induction fuel with
  | zero => intro j _ hf; omega
  | succ fuel ih =>
    intro j hj hf hok
    by_cases hjn : j = (H + 15) / 16
    · have hH : H ≤ 16 * j := by omega
      rw [compressYUVImplPixels_step_done writeOk image fuel H (16 * j) hH]
      subst hjn
      simp
    · have hlt : j < (H + 15) / 16 := by omega
      have hH : 16 * j < H := by omega
      rw [compressYUVImplPixels_step_ok writeOk image fuel H j hH (hok j (le_refl j) hlt)]
      rw [ih (j + 1) (by omega) (by omega) (fun k hk hkn => hok k (by omega) hkn)]
      have hsplit : List.range' j ((H + 15) / 16 - j) =
          j :: List.range' (j + 1) ((H + 15) / 16 - (j + 1)) := by
        have h1 : (H + 15) / 16 - j = ((H + 15) / 16 - (j + 1)) + 1 := by omega
        rw [h1, List.range'_succ]
      rw [hsplit]
      simp

/-- When the encoder accepts the groups `j, ..., k - 1` and refuses group `k`,
the loop started at group `j` stops after the handoff of group `k` and returns
`false`. -/
theorem compressYUVImplPixels_first_failure (writeOk : jpeg_compress_struct → RowPointers → Bool)
    (image : android_ycbcr) (H k : Nat) (hk : k < (H + 15) / 16)
    (hfail : groupOk writeOk image H k = false) :
    ∀ (fuel j : Nat), j ≤ k → k - j < fuel →
      (∀ m, j ≤ m → m < k → groupOk writeOk image H m = true) →
      compressYUVImplPixels writeOk image fuel { image_height := H, next_scanline := 16 * j } =
        some { result := false,
               cinfo := { image_height := H, next_scanline := 16 * k },
               handoffs := (List.range' j (k - j + 1)).map (groupAt image H) } := by
  intro fuel
  induction fuel with
  | zero => intro j _ hf; omega
  | succ fuel ih =>
    intro j hj hf hok
    by_cases hjk : j = k
    · subst hjk
      have hH : 16 * j < H := by omega
      rw [compressYUVImplPixels_step_fail writeOk image fuel H j hH hfail]
      simp
    · have hlt : j < k := by omega
      have hH : 16 * j < H := by omega
      rw [compressYUVImplPixels_step_ok writeOk image fuel H j hH (hok j (le_refl j) hlt)]
      rw [ih (j + 1) (by omega) (by omega) (fun m hm hmk => hok m (by omega) hmk)]
      have hsplit : List.range' j (k - j + 1) = j :: List.range' (j + 1) (k - (j + 1) + 1) := by
        have h1 : k - j + 1 = (k - (j + 1) + 1) + 1 := by omega
        rw [h1, List.range'_succ]
      rw [hsplit]
      simp

/-- C1 at a 65535-row image with row stride 65535: in the last group, which
starts at scanline 65520, slot 14 has the row index 65534, inside the image,
but the `int` product `65534 * 65535` is `4294770690` modulo `2 ^ 32`, so the
pointer handed over is `image.y - 196606`, before the start of the plane.  The
loop hands that group to the encoder.  The same at 65500 rows with stride
65500: in the group that starts at scanline 65488, slot 11 has the row index
65499 and the pointer `image.y - 4782796`. -/
theorem compressYUVImplPixels_row_offset_overflows :
    ((1 ≤ 65535 ∧ 65520 < 65535 ∧ 14 < 16) ∧
      lumaRow 65520 14 (65535 - 1) = 65534 ∧
      (fillRowPointers hugeImage 65520 (65535 - 1)).y[14]? = some (-196606) ∧
      ((65534 : Int) * 65535 = 4294770690 ∧ (4294770690 : Int) < 65535 * 65535) ∧
      (∃ run : PixelsRun,
        compressYUVImplPixels (fun _ _ => true) hugeImage 4097
          { image_height := 65535, next_scanline := 0 } = some run ∧
        run.result = true ∧
        ∃ h ∈ run.handoffs, h.next_scanline = 65520 ∧ h.planes.y[14]? = some (-196606))) ∧
    ((1 ≤ 65500 ∧ 65488 < 65500 ∧ 11 < 16) ∧
      lumaRow 65488 11 (65500 - 1) = 65499 ∧
      (fillRowPointers largestImage 65488 (65500 - 1)).y[11]? = some (-4782796) ∧
      ((65499 : Int) * 65500 = 4290184500 ∧ (4290184500 : Int) < 65500 * 65500) ∧
      (∃ run : PixelsRun,
        compressYUVImplPixels (fun _ _ => true) largestImage 4095
          { image_height := 65500, next_scanline := 0 } = some run ∧
        run.result = true ∧
        ∃ h ∈ run.handoffs, h.next_scanline = 65488 ∧ h.planes.y[11]? = some (-4782796))) := by
  constructor
  · refine ⟨by decide, by decide, by decide, by decide, ?_⟩
    have hrun := compressYUVImplPixels_all_ok (fun _ _ => true) hugeImage 65535 4097 0
      (Nat.zero_le _) (by decide) (fun _ _ _ => rfl)
    refine ⟨_, hrun, rfl, groupAt hugeImage 65535 4095, ?_, by decide, by decide⟩
    rw [List.mem_map]
    exact ⟨4095, by rw [List.mem_range'_1]; decide, rfl⟩
  · refine ⟨by decide, by decide, by decide, by decide, ?_⟩
    have hrun := compressYUVImplPixels_all_ok (fun _ _ => true) largestImage 65500 4095 0
      (Nat.zero_le _) (by decide) (fun _ _ _ => rfl)
    refine ⟨_, hrun, rfl, groupAt largestImage 65500 4093, ?_, by decide, by decide⟩
    rw [List.mem_map]
    exact ⟨4093, by rw [List.mem_range'_1]; decide, rfl⟩

/-! ## `resizeYUV` -/

theorem land_one_ne_zero_iff (n : Nat) : n &&& 1 ≠ 0 ↔ n % 2 = 1 := by
  rw [Nat.and_one_is_mod]
  omega

theorem resizeYUV_reject (I420Scale : ScaleCall → ScaleOutcome) (src : android_ycbcr)
    (srcSize dstSize : Rect) (pDstData : List Nat)
    (h : src.chroma_step ≠ 1 ∨ dstSize.width % 2 = 1 ∨ dstSize.height % 2 = 1) :
    (resizeYUV I420Scale src srcSize dstSize pDstData).result = android_ycbcr.zero ∧
    (resizeYUV I420Scale src srcSize dstSize pDstData).scaleCalls = [] ∧
    (resizeYUV I420Scale src srcSize dstSize pDstData).pDstData = pDstData := by
  unfold resizeYUV
  by_cases hc : src.chroma_step ≠ 1
  · simp [hc]
  · have hodd : dstSize.width &&& 1 ≠ 0 ∨ dstSize.height &&& 1 ≠ 0 := by
      rcases h with h | h | h
      · exact absurd h hc
      · exact Or.inl ((land_one_ne_zero_iff _).2 h)
      · exact Or.inr ((land_one_ne_zero_iff _).2 h)
    simp only [hc, if_false, hodd, if_true, and_self]

theorem resizeYUV_accept (I420Scale : ScaleCall → ScaleOutcome) (src : android_ycbcr)
    (srcSize dstSize : Rect) (pDstData : List Nat)
    (hc : src.chroma_step = 1) (hw : dstSize.width % 2 = 0) (hh : dstSize.height % 2 = 0) :
    ∃ call : ScaleCall,
      (resizeYUV I420Scale src srcSize dstSize pDstData).scaleCalls = [call] ∧
      call.src = src ∧ call.srcSize = srcSize ∧
      call.dstWidth = dstSize.width ∧ call.dstHeight = dstSize.height ∧
      call.dstDataSize = dstSize.width * dstSize.height * 3 / 2 ∧
      call.dst =
        { y := some 0,
          cb := some (dstSize.width * dstSize.height),
          cr := some (dstSize.width * dstSize.height + dstSize.width * dstSize.height / 4),
          ystride := dstSize.width,
          cstride := dstSize.height / 2,
          chroma_step := 1 } ∧
      ((I420Scale call).result ≠ 0 →
        (resizeYUV I420Scale src srcSize dstSize pDstData).result = android_ycbcr.zero ∧
        (resizeYUV I420Scale src srcSize dstSize pDstData).pDstData = pDstData) ∧
      ((I420Scale call).result = 0 →
        (resizeYUV I420Scale src srcSize dstSize pDstData).result = call.dst ∧
        (resizeYUV I420Scale src srcSize dstSize pDstData).pDstData =
          (List.range call.dstDataSize).map (I420Scale call).bytes) := by
  have hw2 : ¬ (dstSize.width &&& 1 ≠ 0) := by rw [land_one_ne_zero_iff]; omega
  have hh2 : ¬ (dstSize.height &&& 1 ≠ 0) := by rw [land_one_ne_zero_iff]; omega
  have hno : ¬ (dstSize.width &&& 1 ≠ 0 ∨ dstSize.height &&& 1 ≠ 0) := by
    intro h
    rcases h with h | h
    · exact hw2 h
    · exact hh2 h
  have hc2 : ¬ (src.chroma_step ≠ 1) := by simp [hc]
  have hshift : (dstSize.width * dstSize.height) >>> 2 = dstSize.width * dstSize.height / 4 := by
    rw [Nat.shiftRight_eq_div_pow]
  refine ⟨{ src := src, srcSize := srcSize,
            dst := { y := some 0,
                     cb := some (dstSize.width * dstSize.height),
                     cr := some (dstSize.width * dstSize.height +
                       dstSize.width * dstSize.height / 4),
                     ystride := dstSize.width,
                     cstride := dstSize.height / 2,
                     chroma_step := 1 },
            dstWidth := dstSize.width, dstHeight := dstSize.height,
            dstDataSize := dstSize.width * dstSize.height * 3 / 2 }, ?_, rfl, rfl, rfl, rfl, rfl,
          rfl, ?_, ?_⟩
  · unfold resizeYUV
    simp only [hc2, if_false, hno, hshift]
    split <;> rfl
  · intro hr
    unfold resizeYUV
    simp only [hc2, if_false, hno, hshift, hr, ne_eq, not_false_eq_true, if_true, and_self]
  · intro hr
    unfold resizeYUV
    simp only [hc2, if_false, hno, hshift, hr, ne_eq, not_true_eq_false, and_self]

/-- C8: `resizeYUV` returns the value-initialised descriptor (null luma
pointer) without calling the scale routine and with the output vector as it
was whenever the source chroma step is not 1 or the destination width or
height is odd; otherwise it calls the scale routine exactly once, and a
non-zero scale result also gives the null descriptor with the output vector
as it was, while a zero result hands back the filled vector. -/
theorem resizeYUV_failure_paths (I420Scale : ScaleCall → ScaleOutcome) (src : android_ycbcr)
    (srcSize dstSize : Rect) (pDstData : List Nat) :
    ((src.chroma_step ≠ 1 ∨ dstSize.width % 2 = 1 ∨ dstSize.height % 2 = 1) →
      (resizeYUV I420Scale src srcSize dstSize pDstData).result.y = none ∧
      (resizeYUV I420Scale src srcSize dstSize pDstData).result = android_ycbcr.zero ∧
      (resizeYUV I420Scale src srcSize dstSize pDstData).scaleCalls = [] ∧
      (resizeYUV I420Scale src srcSize dstSize pDstData).pDstData = pDstData) ∧
    (¬ (src.chroma_step ≠ 1 ∨ dstSize.width % 2 = 1 ∨ dstSize.height % 2 = 1) →
      ∃ call : ScaleCall,
        (resizeYUV I420Scale src srcSize dstSize pDstData).scaleCalls = [call] ∧
        ((I420Scale call).result ≠ 0 →
          (resizeYUV I420Scale src srcSize dstSize pDstData).result.y = none ∧
          (resizeYUV I420Scale src srcSize dstSize pDstData).result = android_ycbcr.zero ∧
          (resizeYUV I420Scale src srcSize dstSize pDstData).pDstData = pDstData) ∧
        ((I420Scale call).result = 0 →
          (resizeYUV I420Scale src srcSize dstSize pDstData).result.y = some 0 ∧
          (resizeYUV I420Scale src srcSize dstSize pDstData).pDstData.length =
            dstSize.width * dstSize.height * 3 / 2)) := by
  constructor
  · intro h
    obtain ⟨h1, h2, h3⟩ := resizeYUV_reject I420Scale src srcSize dstSize pDstData h
    exact ⟨by rw [h1]; rfl, h1, h2, h3⟩
  · intro h
    have hc : src.chroma_step = 1 := by
      by_contra hc
      exact h (Or.inl hc)
    have hw : dstSize.width % 2 = 0 := by
      have : ¬ dstSize.width % 2 = 1 := fun hw => h (Or.inr (Or.inl hw))
      omega
    have hh : dstSize.height % 2 = 0 := by
      have : ¬ dstSize.height % 2 = 1 := fun hh => h (Or.inr (Or.inr hh))
      omega
    obtain ⟨call, h1, _, _, _, _, h6, h7, h8, h9⟩ :=
      resizeYUV_accept I420Scale src srcSize dstSize pDstData hc hw hh
    refine ⟨call, h1, ?_, ?_⟩
    · intro hr
      obtain ⟨hz, hp⟩ := h8 hr
      exact ⟨by rw [hz]; rfl, hz, hp⟩
    · intro hr
      obtain ⟨hz, hp⟩ := h9 hr
      refine ⟨by rw [hz, h7], ?_⟩
      rw [hp, List.length_map, List.length_range, h6]

/-- C8 at the odd size 161x120: no scale call, null descriptor, the output
vector as it was. -/
theorem resizeYUV_failure_paths_witness :
    (resizeYUV (goodExternals 100).I420Scale exampleImage exampleSize
        { width := 161, height := 120 } [7]).result.y = none ∧
    (resizeYUV (goodExternals 100).I420Scale exampleImage exampleSize
        { width := 161, height := 120 } [7]).result = android_ycbcr.zero ∧
    (resizeYUV (goodExternals 100).I420Scale exampleImage exampleSize
        { width := 161, height := 120 } [7]).scaleCalls = [] ∧
    (resizeYUV (goodExternals 100).I420Scale exampleImage exampleSize
        { width := 161, height := 120 } [7]).pDstData = [7] :=
  (resizeYUV_failure_paths (goodExternals 100).I420Scale exampleImage exampleSize
    { width := 161, height := 120 } [7]).1 (Or.inr (Or.inl (by decide)))

/-- C7 at the portrait size 120x160 and at 160x120: `resizeYUV` hands the
scaler a 28800-byte vector with luma at offset 0 (stride the width), chroma-blue
at offset 19200 and chroma-red at offset 24000, but the chroma row stride it
sets is `height / 2`, not `width / 2`.  For 120x160 the stride is 80: the byte
at chroma row 79, column 59 lies past the 4800-byte region of its plane, and for
the chroma-red plane past the end of the vector.  For 160x120 the stride is 60:
the bytes at (row 0, column 60) and (row 1, column 0) coincide. -/
theorem resizeYUV_chroma_stride_is_half_height :
    (∃ call : ScaleCall,
      (resizeYUV (goodExternals 100).I420Scale exampleImage exampleSize
        { width := 120, height := 160 } []).scaleCalls = [call] ∧
      call.dstDataSize = 28800 ∧ call.dst.y = some 0 ∧ call.dst.ystride = 120 ∧
      call.dst.cb = some 19200 ∧ call.dst.cr = some 24000 ∧
      call.dst.cstride = 80 ∧
      79 < 160 / 2 ∧ 59 < 120 / 2 ∧
      ¬ (chromaByte 19200 call.dst.cstride 79 59 < 19200 + 120 * 160 / 4) ∧
      ¬ (chromaByte 24000 call.dst.cstride 79 59 < call.dstDataSize)) ∧
    (∃ call : ScaleCall,
      (resizeYUV (goodExternals 100).I420Scale exampleImage exampleSize
        { width := 160, height := 120 } []).scaleCalls = [call] ∧
      call.dstDataSize = 28800 ∧ call.dst.cb = some 19200 ∧ call.dst.cr = some 24000 ∧
      call.dst.cstride = 60 ∧
      60 < 160 / 2 ∧ 1 < 120 / 2 ∧
      chromaByte 19200 call.dst.cstride 0 60 = chromaByte 19200 call.dst.cstride 1 0) := by
  constructor
  · exact ⟨_, rfl, by decide, rfl, rfl, by decide, by decide, by decide, by decide, by decide,
      by decide, by decide⟩
  · exact ⟨_, rfl, by decide, by decide, by decide, by decide, by decide, by decide, by decide⟩

/-! ## `compressYUVImpl` -/

/-- After `jpeg_std_error` the error manager holds the standard routine, so an
error reported by libjpeg ends the process. -/
theorem onLibraryError_std : onLibraryError (jpeg_std_error JpegErrorMgr.new) = EncodeStatus.exited :=
  rfl

/-- A run of the loop keeps `image_height`, and a run that returns `false`
stops below it. -/
theorem compressYUVImplPixels_false_short (writeOk : jpeg_compress_struct → RowPointers → Bool)
    (image : android_ycbcr) (fuel : Nat) :
    ∀ (cinfo : jpeg_compress_struct) (run : PixelsRun),
      compressYUVImplPixels writeOk image fuel cinfo = some run →
      run.cinfo.image_height = cinfo.image_height ∧
      (run.result = false → run.cinfo.next_scanline < run.cinfo.image_height) := by
  induction fuel with
  | zero => intro cinfo run hrun; simp [compressYUVImplPixels] at hrun
  | succ fuel ih =>
    intro cinfo run hrun
    simp only [compressYUVImplPixels] at hrun
    split at hrun
    · cases hrun
      simp
    · rename_i hlt
      have hlt2 : cinfo.next_scanline < cinfo.image_height := by omega
      have hw2 : (jpeg_write_raw_data writeOk cinfo
          (fillRowPointers image (cinfo.next_scanline : Int) ((cinfo.image_height : Int) - 1))
          kJpegMCUSize).2.image_height = cinfo.image_height := by
        unfold jpeg_write_raw_data
        split <;> rfl
      split at hrun
      · rename_i hzero
        cases hrun
        have hsame : (jpeg_write_raw_data writeOk cinfo
            (fillRowPointers image (cinfo.next_scanline : Int) ((cinfo.image_height : Int) - 1))
            kJpegMCUSize).2 = cinfo := by
          unfold jpeg_write_raw_data at hzero ⊢
          split
          · rename_i hok
            rw [if_pos hok] at hzero
            simp [kJpegMCUSize] at hzero
          · rfl
        refine ⟨hw2, fun _ => ?_⟩
        show (jpeg_write_raw_data writeOk cinfo _ kJpegMCUSize).2.next_scanline <
          (jpeg_write_raw_data writeOk cinfo _ kJpegMCUSize).2.image_height
        rw [hsame]
        exact hlt2
      · cases hrec : compressYUVImplPixels writeOk image fuel
            (jpeg_write_raw_data writeOk cinfo
              (fillRowPointers image (cinfo.next_scanline : Int)
                ((cinfo.image_height : Int) - 1)) kJpegMCUSize).2 with
        | none => rw [hrec] at hrun; simp at hrun
        | some r =>
          rw [hrec] at hrun
          simp at hrun
          subst hrun
          have h := ih _ r hrec
          exact ⟨by rw [← hw2]; exact h.1, h.2⟩

/-- The fuel `compressYUVImpl` gives the loop suffices. -/
theorem compressYUVImplPixels_enough_fuel (writeOk : jpeg_compress_struct → RowPointers → Bool)
    (image : android_ycbcr) (H : Nat) :
    ∃ run, compressYUVImplPixels writeOk image (H + 1)
      { image_height := H, next_scanline := 0 } = some run := by
  by_cases hall : ∀ k, k < (H + 15) / 16 → groupOk writeOk image H k = true
  · exact ⟨_, compressYUVImplPixels_all_ok writeOk image H (H + 1) 0 (Nat.zero_le _) (by omega)
      (fun k _ hk => hall k hk)⟩
  · have hex : ∃ k, k < (H + 15) / 16 ∧ groupOk writeOk image H k = false := by
      by_contra hne
      apply hall
      intro k hk
      by_contra hk2
      exact hne ⟨k, hk, by simpa using hk2⟩
    have hk0 := Nat.find_spec hex
    have hmin : ∀ m, m < Nat.find hex → groupOk writeOk image H m = true := by
      intro m hm
      have := Nat.find_min hex hm
      by_contra hm2
      exact this ⟨by omega, by simpa using hm2⟩
    exact ⟨_, compressYUVImplPixels_first_failure writeOk image H (Nat.find hex) hk0.1 hk0.2
      (H + 1) 0 (Nat.zero_le _) (by omega) (fun m _ hm => hmin m hm)⟩

/-- A call of `compressYUVImpl` never returns `false`: it returns `true` or the
process ends inside it. -/
theorem compressYUVImplStatus_true_or_exit (lib : LibJpeg) (call : EncodeCall) :
    compressYUVImplStatus lib call = EncodeStatus.returned true ∨
    compressYUVImplStatus lib call = EncodeStatus.exited := by
  unfold compressYUVImplStatus
  simp only [onLibraryError_std]
  split
  · exact Or.inr rfl
  · split
    · exact Or.inr rfl
    · split
      · exact Or.inr rfl
      · split
        · exact Or.inr rfl
        · rename_i run hrun
          split
          · exact Or.inr rfl
          · rename_i hfin
            left
            have hshort := (compressYUVImplPixels_false_short _ _ _ _ run hrun).2
            cases hres : run.result with
            | true => rfl
            | false =>
              exfalso
              apply hfin
              have hlt := hshort hres
              unfold jpeg_finish_compress
              have : ¬ run.cinfo.image_height ≤ run.cinfo.next_scanline := by omega
              simp [this]

theorem compressYUVImpl_true_or_exit (lib : LibJpeg) (call : EncodeCall) :
    ((compressYUVImpl lib call).result = true ∧ (compressYUVImpl lib call).exited = false) ∨
    ((compressYUVImpl lib call).result = false ∧ (compressYUVImpl lib call).exited = true) := by
  unfold compressYUVImpl
  rcases compressYUVImplStatus_true_or_exit lib call with h | h
  · left
    rw [h]
    exact ⟨rfl, rfl⟩
  · right
    rw [h]
    exact ⟨rfl, rfl⟩

theorem externals_pass_true_or_exit (ext : Externals) (call : EncodeCall) :
    ((ext.compressYUVImpl call).result = true ∧ (ext.compressYUVImpl call).exited = false) ∨
    ((ext.compressYUVImpl call).result = false ∧ (ext.compressYUVImpl call).exited = true) :=
  Jpeg.compressYUVImpl_true_or_exit ext.libjpeg call

/-! ## The thumbnail block -/

theorem natCast_le_zero_iff (n : Nat) : (n : Int) ≤ 0 ↔ n = 0 := by omega

/-- The six ways the `do { ... } while (false)` block can end. -/
theorem thumbnailBlock_cases (ext : Externals) (image : android_ycbcr) (imageSize : Rect)
    (metadata : CameraMetadata) (jpegData : Option Nat) (C : Nat)
    (entry : camera_metadata_ro_entry_t) :
    (thumbnailRequested metadata = false ∧
      (thumbnailBlock ext image imageSize metadata jpegData C entry).outcome = .skipped ∧
      (thumbnailBlock ext image imageSize metadata jpegData C entry).trace = []) ∨
    (thumbnailRequested metadata = true ∧
      ∃ (s : camera_metadata_ro_entry_t) (calls : List ScaleCall),
        metadata Tag.ANDROID_JPEG_THUMBNAIL_SIZE = some s ∧
        calls = (resizeYUV ext.I420Scale image imageSize
          { width := toUInt16 (s.i32 0), height := toUInt16 (s.i32 1) } []).scaleCalls ∧
        (((thumbnailBlock ext image imageSize metadata jpegData C entry).outcome = .failed ∧
          (thumbnailBlock ext image imageSize metadata jpegData C entry).trace =
            [.resizeYUV { width := toUInt16 (s.i32 0), height := toUInt16 (s.i32 1) }
              calls false]) ∨
         ∃ (call : EncodeCall) (out : EncodeOutcome),
          out = ext.compressYUVImpl call ∧
          call.sink = StaticBufferSink.new jpegData C ∧ call.rawExif = none ∧
          ((out.exited = true ∧
            (thumbnailBlock ext image imageSize metadata jpegData C entry).outcome = .exited ∧
            (thumbnailBlock ext image imageSize metadata jpegData C entry).trace =
              [.resizeYUV { width := toUInt16 (s.i32 0), height := toUInt16 (s.i32 1) }
                 calls true,
               .compressThumbnail call out]) ∨
           (out.exited = false ∧ out.result = false ∧
            (thumbnailBlock ext image imageSize metadata jpegData C entry).outcome = .failed ∧
            (thumbnailBlock ext image imageSize metadata jpegData C entry).trace =
              [.resizeYUV { width := toUInt16 (s.i32 0), height := toUInt16 (s.i32 1) }
                 calls true,
               .compressThumbnail call out]) ∨
           (out.exited = false ∧ out.result = true ∧
            (thumbnailBlock ext image imageSize metadata jpegData C entry).outcome = .failed ∧
            (thumbnailBlock ext image imageSize metadata jpegData C entry).trace =
              [.resizeYUV { width := toUInt16 (s.i32 0), height := toUInt16 (s.i32 1) }
                 calls true,
               .compressThumbnail call out,
               .exifDataAllocThumbnail (sizeSub C out.free_in_buffer) false]) ∨
           (out.exited = false ∧ out.result = true ∧
            (thumbnailBlock ext image imageSize metadata jpegData C entry).outcome =
              .attached (sizeSub C out.free_in_buffer) ∧
            (thumbnailBlock ext image imageSize metadata jpegData C entry).trace =
              [.resizeYUV { width := toUInt16 (s.i32 0), height := toUInt16 (s.i32 1) }
                 calls true,
               .compressThumbnail call out,
               .exifDataAllocThumbnail (sizeSub C out.free_in_buffer) true,
               .memcpyThumbnail (sizeSub C out.free_in_buffer)])))) := by
  cases hs : metadata Tag.ANDROID_JPEG_THUMBNAIL_SIZE with
  | none =>
    left
    simp [thumbnailBlock, thumbnailRequested, find_camera_metadata_ro_entry, hs, NOT_FOUND]
  | some s =>
    by_cases hz : toUInt16 (s.i32 0) = 0 ∨ toUInt16 (s.i32 1) = 0
    · left
      have hz2 : ((toUInt16 (s.i32 0) : Nat) : Int) ≤ 0 ∨ ((toUInt16 (s.i32 1) : Nat) : Int) ≤ 0 := by
        rcases hz with h | h
        · exact Or.inl ((natCast_le_zero_iff _).2 h)
        · exact Or.inr ((natCast_le_zero_iff _).2 h)
      refine ⟨?_, ?_, ?_⟩
      · unfold thumbnailRequested
        rw [hs]
        rcases hz with h | h <;> cases metadata Tag.ANDROID_JPEG_THUMBNAIL_QUALITY <;> simp [h]
      · simp only [thumbnailBlock, find_camera_metadata_ro_entry, hs, ne_eq, not_true_eq_false,
          if_false, hz2, if_true]
      · simp only [thumbnailBlock, find_camera_metadata_ro_entry, hs, ne_eq, not_true_eq_false,
          if_false, hz2, if_true]
    · have hz2 : ¬ (((toUInt16 (s.i32 0) : Nat) : Int) ≤ 0 ∨
          ((toUInt16 (s.i32 1) : Nat) : Int) ≤ 0) := by
        intro h
        apply hz
        rcases h with h | h
        · exact Or.inl ((natCast_le_zero_iff _).1 h)
        · exact Or.inr ((natCast_le_zero_iff _).1 h)
      have hw : toUInt16 (s.i32 0) ≠ 0 := fun h => hz (Or.inl h)
      have hh : toUInt16 (s.i32 1) ≠ 0 := fun h => hz (Or.inr h)
      cases hq : metadata Tag.ANDROID_JPEG_THUMBNAIL_QUALITY with
      | none =>
        left
        refine ⟨?_, ?_, ?_⟩
        · unfold thumbnailRequested
          rw [hs, hq]
        · simp [thumbnailBlock, find_camera_metadata_ro_entry, hs, hq, hz2, NOT_FOUND]
        · simp [thumbnailBlock, find_camera_metadata_ro_entry, hs, hq, hz2, NOT_FOUND]
      | some q =>
        by_cases hq0 : q.i32 0 ≤ 0
        · left
          refine ⟨?_, ?_, ?_⟩
          · unfold thumbnailRequested
            rw [hs, hq]
            simp [hq0]
          · simp [thumbnailBlock, find_camera_metadata_ro_entry, hs, hq, hz, hq0]
          · simp [thumbnailBlock, find_camera_metadata_ro_entry, hs, hq, hz, hq0]
        · right
          refine ⟨?_, s, _, rfl, rfl, ?_⟩
          · unfold thumbnailRequested
            rw [hs, hq]
            have : 0 < q.i32 0 := by omega
            simp [hw, hh, this]
          · simp only [thumbnailBlock, find_camera_metadata_ro_entry, hs, hq, ne_eq,
              not_true_eq_false, if_false, hz2, hq0]
            split
            · left
              exact ⟨rfl, rfl⟩
            · right
              refine ⟨{ image := (resizeYUV ext.I420Scale image imageSize
                            { width := toUInt16 (s.i32 0), height := toUInt16 (s.i32 1) } []).result,
                        imageSize := { width := toUInt16 (s.i32 0), height := toUInt16 (s.i32 1) },
                        rawExif := none, quality := q.i32 0,
                        sink := StaticBufferSink.new jpegData C }, _, rfl, rfl, rfl, ?_⟩
              split
              · rename_i hex
                left
                exact ⟨hex, rfl, rfl⟩
              · rename_i hex
                right
                have hex2 : (ext.compressYUVImpl
                    { image := (resizeYUV ext.I420Scale image imageSize
                        { width := toUInt16 (s.i32 0), height := toUInt16 (s.i32 1) } []).result,
                      imageSize := { width := toUInt16 (s.i32 0), height := toUInt16 (s.i32 1) },
                      rawExif := none, quality := q.i32 0,
                      sink := StaticBufferSink.new jpegData C }).exited = false := by
                  simpa using hex
                split
                · rename_i hres
                  left
                  exact ⟨hex2, by simpa using hres, rfl, rfl⟩
                · rename_i hres
                  right
                  split
                  · left
                    exact ⟨hex2, by simpa using hres, rfl, rfl⟩
                  · right
                    exact ⟨hex2, by simpa using hres, rfl, rfl⟩

/-! ## The main part and the whole of `compressYUV` -/

/-- The four ways the part after the thumbnail block can end. -/
theorem compressMainPart_cases (ext : Externals) (image : android_ycbcr) (imageSize : Rect)
    (metadata : CameraMetadata) (jpegData : Option Nat) (C : Nat)
    (entry : camera_metadata_ro_entry_t) (t : Option Nat) :
    (ext.exif_data_save_data t = none ∧
      compressMainPart ext image imageSize metadata jpegData C entry t =
        { result := false, trace := [.exif_data_save_data none], exited := false }) ∨
    (∃ (n : Nat) (call : EncodeCall) (out : EncodeOutcome),
      ext.exif_data_save_data t = some n ∧
      out = ext.compressYUVImpl call ∧
      call = { image := image, imageSize := imageSize, rawExif := some n,
               quality := qualityOf metadata,
               sink := StaticBufferSink.new jpegData (sizeSub C sizeofCamera3JpegBlob) } ∧
      ((out.exited = true ∧
        compressMainPart ext image imageSize metadata jpegData C entry t =
          { result := false,
            trace := [.exif_data_save_data (some n),
                      .compressMain call out],
            exited := true }) ∨
       (out.exited = false ∧ out.result = true ∧
        compressMainPart ext image imageSize metadata jpegData C entry t =
          { result := true,
            trace := [.exif_data_save_data (some n),
                      .compressMain call out,
                      .memcpyBlob (sizeSub C sizeofCamera3JpegBlob) CAMERA3_JPEG_BLOB_ID
                        (toUInt32 (sizeSub (sizeSub C sizeofCamera3JpegBlob) out.free_in_buffer)),
                      .free],
            exited := false }) ∨
       (out.exited = false ∧ out.result = false ∧
        compressMainPart ext image imageSize metadata jpegData C entry t =
          { result := false,
            trace := [.exif_data_save_data (some n),
                      .compressMain call out,
                      .free],
            exited := false }))) := by
  have hq : (if (find_camera_metadata_ro_entry metadata Tag.ANDROID_JPEG_QUALITY entry).1 ≠ 0
      then (85 : Int)
      else (find_camera_metadata_ro_entry metadata Tag.ANDROID_JPEG_QUALITY entry).2.i32 0) =
      qualityOf metadata := by
    unfold find_camera_metadata_ro_entry qualityOf
    cases metadata Tag.ANDROID_JPEG_QUALITY <;> simp [NOT_FOUND]
  cases hsave : ext.exif_data_save_data t with
  | none =>
    left
    refine ⟨rfl, ?_⟩
    simp only [compressMainPart, hsave]
  | some n =>
    right
    refine ⟨n, { image := image, imageSize := imageSize, rawExif := some n,
                 quality := qualityOf metadata,
                 sink := StaticBufferSink.new jpegData (sizeSub C sizeofCamera3JpegBlob) },
            _, rfl, rfl, rfl, ?_⟩
    simp only [compressMainPart, hsave, hq]
    split
    · rename_i hex
      left
      exact ⟨hex, rfl⟩
    · rename_i hex
      right
      have hex2 : (ext.compressYUVImpl
          { image := image, imageSize := imageSize, rawExif := some n,
            quality := qualityOf metadata,
            sink := StaticBufferSink.new jpegData (sizeSub C sizeofCamera3JpegBlob) }).exited =
          false := by
        simpa using hex
      split
      · rename_i hres
        left
        exact ⟨hex2, hres, rfl⟩
      · rename_i hres
        right
        exact ⟨hex2, by simpa using hres, rfl⟩

/-- How `compressYUV` is made of the thumbnail block and the main part. -/
theorem compressYUV_decompose (ext : Externals) (image : android_ycbcr) (imageSize : Rect)
    (metadata : CameraMetadata) (jpegData : Option Nat) (C : Nat) :
    (image.chroma_step ≠ 1 ∧
      compressYUV ext image imageSize metadata jpegData C =
        { result := false, trace := [], exited := false }) ∨
    (image.chroma_step = 1 ∧ ext.createExifData = false ∧
      compressYUV ext image imageSize metadata jpegData C =
        { result := false, trace := [.createExifData false], exited := false }) ∨
    (image.chroma_step = 1 ∧ ext.createExifData = true ∧
      (thumbnailBlock ext image imageSize metadata jpegData C
          camera_metadata_ro_entry_t.uninit).outcome = .failed ∧
      compressYUV ext image imageSize metadata jpegData C =
        { result := false,
          trace := .createExifData true ::
            (thumbnailBlock ext image imageSize metadata jpegData C
              camera_metadata_ro_entry_t.uninit).trace,
          exited := false }) ∨
    (image.chroma_step = 1 ∧ ext.createExifData = true ∧
      (thumbnailBlock ext image imageSize metadata jpegData C
          camera_metadata_ro_entry_t.uninit).outcome = .exited ∧
      compressYUV ext image imageSize metadata jpegData C =
        { result := false,
          trace := .createExifData true ::
            (thumbnailBlock ext image imageSize metadata jpegData C
              camera_metadata_ro_entry_t.uninit).trace,
          exited := true }) ∨
    (image.chroma_step = 1 ∧ ext.createExifData = true ∧
      ∃ t : Option Nat,
        ((thumbnailBlock ext image imageSize metadata jpegData C
            camera_metadata_ro_entry_t.uninit).outcome = .skipped ∧ t = none ∨
         ∃ n, (thumbnailBlock ext image imageSize metadata jpegData C
            camera_metadata_ro_entry_t.uninit).outcome = .attached n ∧ t = some n) ∧
        compressYUV ext image imageSize metadata jpegData C =
          { result := (compressMainPart ext image imageSize metadata jpegData C
              (thumbnailBlock ext image imageSize metadata jpegData C
                camera_metadata_ro_entry_t.uninit).metadataEntry t).result,
            trace := .createExifData true ::
              ((thumbnailBlock ext image imageSize metadata jpegData C
                  camera_metadata_ro_entry_t.uninit).trace ++
               (compressMainPart ext image imageSize metadata jpegData C
                  (thumbnailBlock ext image imageSize metadata jpegData C
                    camera_metadata_ro_entry_t.uninit).metadataEntry t).trace),
            exited := (compressMainPart ext image imageSize metadata jpegData C
              (thumbnailBlock ext image imageSize metadata jpegData C
                camera_metadata_ro_entry_t.uninit).metadataEntry t).exited }) := by
  by_cases hc : image.chroma_step ≠ 1
  · left
    exact ⟨hc, by simp [compressYUV, hc]⟩
  · right
    have hc1 : image.chroma_step = 1 := by simpa using hc
    cases hx : ext.createExifData with
    | false =>
      left
      exact ⟨hc1, rfl, by simp [compressYUV, hc1, hx]⟩
    | true =>
      right
      cases ho : (thumbnailBlock ext image imageSize metadata jpegData C
          camera_metadata_ro_entry_t.uninit).outcome with
      | failed =>
        left
        refine ⟨hc1, rfl, rfl, ?_⟩
        simp only [compressYUV, hc, if_false, hx, Bool.not_true, Bool.false_eq_true, ho]
      | exited =>
        right; left
        refine ⟨hc1, rfl, rfl, ?_⟩
        simp only [compressYUV, hc, if_false, hx, Bool.not_true, Bool.false_eq_true, ho]
      | skipped =>
        right; right
        refine ⟨hc1, rfl, none, Or.inl ⟨rfl, rfl⟩, ?_⟩
        simp only [compressYUV, hc, if_false, hx, Bool.not_true, Bool.false_eq_true, ho]
      | attached n =>
        right; right
        refine ⟨hc1, rfl, some n, Or.inr ⟨n, rfl, rfl⟩, ?_⟩
        simp only [compressYUV, hc, if_false, hx, Bool.not_true, Bool.false_eq_true, ho]

/-- Every run of `compressYUV` has one of these shapes: the chroma step is
rejected; the EXIF build fails; the thumbnail block fails (in the scaler, the
thumbnail pass or the allocation) or the process ends in the thumbnail pass; or
the main part is reached, after a skipped or a completed thumbnail block, and
ends in one of its four ways. -/
theorem compressYUV_shapes (ext : Externals) (image : android_ycbcr) (imageSize : Rect)
    (metadata : CameraMetadata) (jpegData : Option Nat) (C : Nat) :
    (image.chroma_step ≠ 1 ∧
      compressYUV ext image imageSize metadata jpegData C =
        { result := false, trace := [], exited := false }) ∨
    (image.chroma_step = 1 ∧ ext.createExifData = false ∧
      compressYUV ext image imageSize metadata jpegData C =
        { result := false, trace := [.createExifData false], exited := false }) ∨
    (image.chroma_step = 1 ∧ ext.createExifData = true ∧ thumbnailRequested metadata = true ∧
      ∃ (sz : Rect) (calls : List ScaleCall),
        (compressYUV ext image imageSize metadata jpegData C =
          { result := false, trace := [.createExifData true, .resizeYUV sz calls false],
            exited := false } ∨
         ∃ (tcall : EncodeCall) (tout : EncodeOutcome),
          tout = ext.compressYUVImpl tcall ∧ tcall.sink = StaticBufferSink.new jpegData C ∧
          ((tout.exited = true ∧ tout.result = false ∧
            compressYUV ext image imageSize metadata jpegData C =
              { result := false,
                trace := [.createExifData true, .resizeYUV sz calls true,
                          .compressThumbnail tcall tout],
                exited := true }) ∨
           (tout.exited = false ∧ tout.result = false ∧
            compressYUV ext image imageSize metadata jpegData C =
              { result := false,
                trace := [.createExifData true, .resizeYUV sz calls true,
                          .compressThumbnail tcall tout],
                exited := false }) ∨
           (tout.exited = false ∧ tout.result = true ∧
            compressYUV ext image imageSize metadata jpegData C =
              { result := false,
                trace := [.createExifData true, .resizeYUV sz calls true,
                          .compressThumbnail tcall tout,
                          .exifDataAllocThumbnail (sizeSub C tout.free_in_buffer) false],
                exited := false })))) ∨
    (image.chroma_step = 1 ∧ ext.createExifData = true ∧
      ∃ (pre : List Event) (t : Option Nat),
        ((thumbnailRequested metadata = false ∧ pre = [] ∧ t = none) ∨
         (thumbnailRequested metadata = true ∧
          ∃ (sz : Rect) (calls : List ScaleCall) (tcall : EncodeCall) (tout : EncodeOutcome),
            tout = ext.compressYUVImpl tcall ∧ tcall.sink = StaticBufferSink.new jpegData C ∧
            tout.exited = false ∧ tout.result = true ∧
            t = some (sizeSub C tout.free_in_buffer) ∧
            pre = [.resizeYUV sz calls true, .compressThumbnail tcall tout,
                   .exifDataAllocThumbnail (sizeSub C tout.free_in_buffer) true,
                   .memcpyThumbnail (sizeSub C tout.free_in_buffer)])) ∧
        ((ext.exif_data_save_data t = none ∧
          compressYUV ext image imageSize metadata jpegData C =
            { result := false,
              trace := .createExifData true :: (pre ++ [.exif_data_save_data none]),
              exited := false }) ∨
         ∃ (n : Nat) (call : EncodeCall) (out : EncodeOutcome),
          ext.exif_data_save_data t = some n ∧
          out = ext.compressYUVImpl call ∧
          call = { image := image, imageSize := imageSize, rawExif := some n,
                   quality := qualityOf metadata,
                   sink := StaticBufferSink.new jpegData (sizeSub C sizeofCamera3JpegBlob) } ∧
          ((out.exited = true ∧ out.result = false ∧
            compressYUV ext image imageSize metadata jpegData C =
              { result := false,
                trace := .createExifData true ::
                  (pre ++ [.exif_data_save_data (some n),
                           .compressMain call out]),
                exited := true }) ∨
           (out.exited = false ∧ out.result = true ∧
            compressYUV ext image imageSize metadata jpegData C =
              { result := true,
                trace := .createExifData true ::
                  (pre ++ [.exif_data_save_data (some n),
                           .compressMain call out,
                           .memcpyBlob (sizeSub C sizeofCamera3JpegBlob) CAMERA3_JPEG_BLOB_ID
                             (toUInt32
                               (sizeSub (sizeSub C sizeofCamera3JpegBlob) out.free_in_buffer)),
                           .free]),
                exited := false }) ∨
           (out.exited = false ∧ out.result = false ∧
            compressYUV ext image imageSize metadata jpegData C =
              { result := false,
                trace := .createExifData true ::
                  (pre ++ [.exif_data_save_data (some n),
                           .compressMain call out,
                           .free]),
                exited := false })))) := by
  have hexres : ∀ (call : EncodeCall) (out : EncodeOutcome), out = ext.compressYUVImpl call →
      out.exited = true → out.result = false := by
    intro call out hout hex
    subst hout
    rcases externals_pass_true_or_exit ext call with ⟨_, h⟩ | ⟨h, _⟩
    · rw [h] at hex
      cases hex
    · exact h
  rcases compressYUV_decompose ext image imageSize metadata jpegData C with
    ⟨hc, hrun⟩ | ⟨hc, hx, hrun⟩ | ⟨hc, hx, hfail, hrun⟩ | ⟨hc, hx, hfail, hrun⟩ |
    ⟨hc, hx, t, ht, hrun⟩
  · exact Or.inl ⟨hc, hrun⟩
  · exact Or.inr (Or.inl ⟨hc, hx, hrun⟩)
  · right; right; left
    rcases thumbnailBlock_cases ext image imageSize metadata jpegData C
        camera_metadata_ro_entry_t.uninit with
      ⟨_, ho, _⟩ | ⟨hreq, s, calls, _, _, hcase⟩
    · rw [ho] at hfail
      cases hfail
    · refine ⟨hc, hx, hreq, { width := toUInt16 (s.i32 0), height := toUInt16 (s.i32 1) },
        calls, ?_⟩
      rcases hcase with ⟨_, htr⟩ | ⟨tcall, tout, h1, h2, _, hcase⟩
      · left
        rw [hrun, htr]
      · right
        refine ⟨tcall, tout, h1, h2, ?_⟩
        rcases hcase with ⟨_, ho, _⟩ | ⟨he, hr, _, htr⟩ | ⟨he, hr, _, htr⟩ | ⟨_, _, ho, _⟩
        · rw [ho] at hfail
          cases hfail
        · right; left
          exact ⟨he, hr, by rw [hrun, htr]⟩
        · right; right
          exact ⟨he, hr, by rw [hrun, htr]⟩
        · rw [ho] at hfail
          cases hfail
  · right; right; left
    rcases thumbnailBlock_cases ext image imageSize metadata jpegData C
        camera_metadata_ro_entry_t.uninit with
      ⟨_, ho, _⟩ | ⟨hreq, s, calls, _, _, hcase⟩
    · rw [ho] at hfail
      cases hfail
    · refine ⟨hc, hx, hreq, { width := toUInt16 (s.i32 0), height := toUInt16 (s.i32 1) },
        calls, ?_⟩
      rcases hcase with ⟨ho, _⟩ | ⟨tcall, tout, h1, h2, _, hcase⟩
      · rw [ho] at hfail
        cases hfail
      · right
        refine ⟨tcall, tout, h1, h2, ?_⟩
        rcases hcase with ⟨he, _, htr⟩ | ⟨_, _, ho, _⟩ | ⟨_, _, ho, _⟩ | ⟨_, _, ho, _⟩
        · left
          exact ⟨he, hexres tcall tout h1 he, by rw [hrun, htr]⟩
        · rw [ho] at hfail
          cases hfail
        · rw [ho] at hfail
          cases hfail
        · rw [ho] at hfail
          cases hfail
  · right; right; right
    have hpre : ∃ pre : List Event,
        (thumbnailBlock ext image imageSize metadata jpegData C
          camera_metadata_ro_entry_t.uninit).trace = pre ∧
        ((thumbnailRequested metadata = false ∧ pre = [] ∧ t = none) ∨
         (thumbnailRequested metadata = true ∧
          ∃ (sz : Rect) (calls : List ScaleCall) (tcall : EncodeCall) (tout : EncodeOutcome),
            tout = ext.compressYUVImpl tcall ∧ tcall.sink = StaticBufferSink.new jpegData C ∧
            tout.exited = false ∧ tout.result = true ∧
            t = some (sizeSub C tout.free_in_buffer) ∧
            pre = [.resizeYUV sz calls true, .compressThumbnail tcall tout,
                   .exifDataAllocThumbnail (sizeSub C tout.free_in_buffer) true,
                   .memcpyThumbnail (sizeSub C tout.free_in_buffer)])) := by
      rcases thumbnailBlock_cases ext image imageSize metadata jpegData C
          camera_metadata_ro_entry_t.uninit with
        ⟨hreq, ho, htr⟩ | ⟨hreq, s, calls, _, _, hcase⟩
      · refine ⟨[], htr, Or.inl ⟨hreq, rfl, ?_⟩⟩
        rcases ht with ⟨_, ht⟩ | ⟨n, ho2, _⟩
        · exact ht
        · rw [ho] at ho2
          cases ho2
      · rcases hcase with ⟨ho, _⟩ | ⟨tcall, tout, h1, h2, _, hcase⟩
        · rcases ht with ⟨ho2, _⟩ | ⟨n, ho2, _⟩ <;> (rw [ho] at ho2; cases ho2)
        · rcases hcase with ⟨_, ho, _⟩ | ⟨_, _, ho, _⟩ | ⟨_, _, ho, _⟩ | ⟨he, hr, ho, htr⟩
          · rcases ht with ⟨ho2, _⟩ | ⟨n, ho2, _⟩ <;> (rw [ho] at ho2; cases ho2)
          · rcases ht with ⟨ho2, _⟩ | ⟨n, ho2, _⟩ <;> (rw [ho] at ho2; cases ho2)
          · rcases ht with ⟨ho2, _⟩ | ⟨n, ho2, _⟩ <;> (rw [ho] at ho2; cases ho2)
          · rcases ht with ⟨ho2, _⟩ | ⟨n, ho2, hn⟩
            · rw [ho] at ho2
              cases ho2
            · rw [ho] at ho2
              cases ho2
              exact ⟨_, htr, Or.inr ⟨hreq,
                { width := toUInt16 (s.i32 0), height := toUInt16 (s.i32 1) }, calls, tcall, tout,
                h1, h2, he, hr, hn, rfl⟩⟩
    obtain ⟨pre, htr, hshape⟩ := hpre
    refine ⟨hc, hx, pre, t, hshape, ?_⟩
    rcases compressMainPart_cases ext image imageSize metadata jpegData C
        (thumbnailBlock ext image imageSize metadata jpegData C
          camera_metadata_ro_entry_t.uninit).metadataEntry t with
      ⟨hsave, hm⟩ | ⟨n, call, out, hsave, hout, hcall, hcase⟩
    · left
      refine ⟨hsave, ?_⟩
      rw [hrun, hm, htr]
    · right
      refine ⟨n, call, out, hsave, hout, hcall, ?_⟩
      rcases hcase with ⟨he, hm⟩ | ⟨he, hr, hm⟩ | ⟨he, hr, hm⟩
      · left
        exact ⟨he, hexres call out hout he, by rw [hrun, hm, htr]⟩
      · right; left
        exact ⟨he, hr, by rw [hrun, hm, htr]⟩
      · right; right
        exact ⟨he, hr, by rw [hrun, hm, htr]⟩

/-! ## Stage order -/

/-- The stages of a run of `compressYUV`: a chroma step other than 1 gives
`false` with no stage at all, and otherwise the EXIF build runs first.  The
stages are an initial segment of the fixed order EXIF build, [scale, compress
thumbnail, attach thumbnail when the thumbnail is requested], serialize EXIF,
compress main, write trailer, and every stage but the last one of the run
succeeded.  The run returns `true` exactly when all the stages ran and
succeeded, exactly when the trailer was written.  When the process ends inside
the call, the last stage is an encoder pass that failed. -/
theorem compressYUV_stages (ext : Externals) (image : android_ycbcr) (imageSize : Rect)
    (metadata : CameraMetadata) (jpegData : Option Nat) (C : Nat) :
    (image.chroma_step ≠ 1 →
      (compressYUV ext image imageSize metadata jpegData C).trace = [] ∧
      (compressYUV ext image imageSize metadata jpegData C).result = false ∧
      (compressYUV ext image imageSize metadata jpegData C).exited = false) ∧
    (image.chroma_step = 1 →
      ∃ rest, stagesOf (compressYUV ext image imageSize metadata jpegData C).trace =
        (Stage.exifBuild, ext.createExifData) :: rest) ∧
    ((stagesOf (compressYUV ext image imageSize metadata jpegData C).trace).map Prod.fst <+:
      canonicalStages (thumbnailRequested metadata)) ∧
    ((stagesOf (compressYUV ext image imageSize metadata jpegData C).trace).dropLast.all
      (fun s => s.2) = true) ∧
    ((compressYUV ext image imageSize metadata jpegData C).result = true ↔
      stagesOf (compressYUV ext image imageSize metadata jpegData C).trace =
        (canonicalStages (thumbnailRequested metadata)).map (fun s => (s, true))) ∧
    ((compressYUV ext image imageSize metadata jpegData C).result = true ↔
      ∃ offset id size, Event.memcpyBlob offset id size ∈
        (compressYUV ext image imageSize metadata jpegData C).trace) ∧
    ((compressYUV ext image imageSize metadata jpegData C).result = true →
      (compressYUV ext image imageSize metadata jpegData C).exited = false) ∧
    ((compressYUV ext image imageSize metadata jpegData C).exited = true →
      (∃ s, (s = Stage.compressThumbnail ∨ s = Stage.compressMain) ∧
        (stagesOf (compressYUV ext image imageSize metadata jpegData C).trace).getLast? =
          some (s, false)) ∧
      Event.free ∉ (compressYUV ext image imageSize metadata jpegData C).trace) := by
  rcases compressYUV_shapes ext image imageSize metadata jpegData C with
    ⟨hc, hrun⟩ | ⟨hc, hx, hrun⟩ | ⟨hc, hx, hreq, sz, calls, hcase⟩ | ⟨hc, hx, pre, t, hpre, hcase⟩
  · rw [hrun]
    simp [stagesOf, Event.stage, canonicalStages, hc]
  · rw [hrun]
    simp [stagesOf, Event.stage, canonicalStages, hc, hx]
  · rcases hcase with hrun | ⟨tcall, tout, hto, hts, ⟨he, hr, hrun⟩ | ⟨he, hr, hrun⟩ | ⟨he, hr, hrun⟩⟩
    · rw [hrun]
      simp [stagesOf, Event.stage, canonicalStages, hc, hx, hreq]
    · rw [hrun]
      simp [stagesOf, Event.stage, canonicalStages, hc, hx, hreq, he, hr]
    · rw [hrun]
      simp [stagesOf, Event.stage, canonicalStages, hc, hx, hreq, he, hr]
    · rw [hrun]
      simp [stagesOf, Event.stage, canonicalStages, hc, hx, hreq, he, hr]
  · rcases hpre with ⟨hreq, hp, ht⟩ | ⟨hreq, sz, calls, tcall, tout, hto, hts, he, hr, ht, hp⟩
    · subst hp
      rcases hcase with ⟨hsave, hrun⟩ | ⟨n, call, out, hsave, hout, hcall, ⟨heo, hro, hrun⟩ | ⟨heo, hro, hrun⟩ | ⟨heo, hro, hrun⟩⟩
      · rw [hrun]
        simp [stagesOf, Event.stage, canonicalStages, hc, hx, hreq]
      · rw [hrun]
        simp [stagesOf, Event.stage, canonicalStages, hc, hx, hreq, heo, hro, hcall]
      · rw [hrun]
        simp [stagesOf, Event.stage, canonicalStages, hc, hx, hreq, heo, hro, hcall]
      · rw [hrun]
        simp [stagesOf, Event.stage, canonicalStages, hc, hx, hreq, heo, hro, hcall]
    · subst hp
      rcases hcase with ⟨hsave, hrun⟩ | ⟨n, call, out, hsave, hout, hcall, ⟨heo, hro, hrun⟩ | ⟨heo, hro, hrun⟩ | ⟨heo, hro, hrun⟩⟩
      · rw [hrun]
        simp [stagesOf, Event.stage, canonicalStages, hc, hx, hreq, he, hr]
      · rw [hrun]
        simp [stagesOf, Event.stage, canonicalStages, hc, hx, hreq, he, hr, heo, hro, hcall]
      · rw [hrun]
        simp [stagesOf, Event.stage, canonicalStages, hc, hx, hreq, he, hr, heo, hro, hcall]
      · rw [hrun]
        simp [stagesOf, Event.stage, canonicalStages, hc, hx, hreq, he, hr, heo, hro, hcall]

/-- C9 on an encoder failure: the constructor of `JpegErrorMgr` installs the
handler `onJpegErrorS`, but `jpeg_std_error` runs after it and puts libjpeg's
standard `error_exit` back, so no error reaches the `setjmp` branch.  With a
destination of 1000 bytes, which the first group of rows fills, the first
handoff is refused,
`compressYUVImplPixels` returns `false`, `jpeg_finish_compress` reports the
missing scanlines, and the process ends inside `compressYUVImpl`:
`compressYUV` returns no failure result and does not reach `free`.  In general
the loop inside `compressYUVImpl` always returns, and a call of
`compressYUVImpl` returns `true` or ends the process; it never returns
`false`. -/
theorem compressYUV_encoder_failure_exits :
    JpegErrorMgr.new.error_exit = ErrorExit.onJpegErrorS ∧
    (jpeg_std_error JpegErrorMgr.new).error_exit = ErrorExit.standard ∧
    (∃ run : PixelsRun,
      compressYUVImplPixels (fullSinkExternals.libjpeg.jpeg_write_raw_data (exampleMainCall 992))
        exampleImage 481 { image_height := 480, next_scanline := 0 } = some run ∧
      run.result = false ∧ run.handoffs.length = 1 ∧ run.cinfo.next_scanline = 0 ∧
      jpeg_finish_compress fullSinkExternals.libjpeg (exampleMainCall 992) run.cinfo = false) ∧
    compressYUVImplStatus fullSinkExternals.libjpeg (exampleMainCall 992) = EncodeStatus.exited ∧
    (compressYUV fullSinkExternals exampleImage exampleSize noTags (some 0) 1000).exited = true ∧
    (compressYUV fullSinkExternals exampleImage exampleSize noTags (some 0) 1000).trace =
      [Event.createExifData true, Event.exif_data_save_data (some 64),
       Event.compressMain (exampleMainCall 992)
         { result := false, free_in_buffer := 0, exited := true }] ∧
    (∀ (lib : LibJpeg) (call : EncodeCall),
      (∃ run, compressYUVImplPixels (lib.jpeg_write_raw_data call) call.image
        (call.imageSize.height + 1)
        { image_height := call.imageSize.height, next_scanline := 0 } = some run) ∧
      (compressYUVImplStatus lib call = EncodeStatus.returned true ∨
        compressYUVImplStatus lib call = EncodeStatus.exited)) := by
  refine ⟨rfl, rfl, ⟨_, rfl, by decide, by decide, by decide, by decide⟩, by decide, by decide,
    by decide, fun lib call => ⟨compressYUVImplPixels_enough_fuel _ _ _,
      compressYUVImplStatus_true_or_exit lib call⟩⟩

/-! ## Release of resources -/

/-- The resources of `HwCamera::compressJpeg` on its two kinds of runs.  On a
run that returns, the trace passes the resource monitor from nothing held to
nothing held; the source mapping is unlocked once when its lock succeeded and
never otherwise, the destination mapping likewise, and `free` occurs as often
as a serialization that produced a buffer, at most once.  On a run in which the
process ends inside `compressYUV`, both locks were taken and neither `unlock`
nor `free` occurs. -/
theorem compressJpeg_resources (gbm : GraphicBufferMapper) (ext : Externals) (bufferSize : Int)
    (size : Rect) (metadata : CameraMetadata) :
    ((compressJpeg gbm ext bufferSize size metadata).exited = false →
      monitor (compressJpeg gbm ext bufferSize size metadata).trace
          { image := false, buffer := false, rawExif := false } =
        some { image := false, buffer := false, rawExif := false } ∧
      (compressJpeg gbm ext bufferSize size metadata).trace.count Event.unlockImage =
        (if gbm.lockYCbCr.y.isSome then 1 else 0) ∧
      (compressJpeg gbm ext bufferSize size metadata).trace.count (Event.lockYCbCr true) =
        (if gbm.lockYCbCr.y.isSome then 1 else 0) ∧
      (compressJpeg gbm ext bufferSize size metadata).trace.count Event.unlockBuffer =
        (if gbm.lockYCbCr.y.isSome ∧ gbm.lock.isSome then 1 else 0) ∧
      (compressJpeg gbm ext bufferSize size metadata).trace.count (Event.lock true) =
        (if gbm.lockYCbCr.y.isSome ∧ gbm.lock.isSome then 1 else 0) ∧
      (compressJpeg gbm ext bufferSize size metadata).trace.count Event.free =
        (compressJpeg gbm ext bufferSize size metadata).trace.countP Event.isSerialized ∧
      (compressJpeg gbm ext bufferSize size metadata).trace.count Event.free ≤ 1) ∧
    ((compressJpeg gbm ext bufferSize size metadata).exited = true →
      (compressJpeg gbm ext bufferSize size metadata).trace.count (Event.lockYCbCr true) = 1 ∧
      (compressJpeg gbm ext bufferSize size metadata).trace.count (Event.lock true) = 1 ∧
      (compressJpeg gbm ext bufferSize size metadata).trace.count Event.unlockImage = 0 ∧
      (compressJpeg gbm ext bufferSize size metadata).trace.count Event.unlockBuffer = 0 ∧
      (compressJpeg gbm ext bufferSize size metadata).trace.count Event.free = 0) := by
  cases hy : gbm.lockYCbCr.y with
  | none =>
    simp [compressJpeg, hy, monitor, Held.step, Event.isSerialized]
  | some a =>
    cases hl : gbm.lock with
    | none =>
      simp [compressJpeg, hy, hl, monitor, Held.step, Event.isSerialized]
    | some b =>
      simp only [compressJpeg, hy, hl, Option.isNone_some, Bool.false_eq_true, if_false]
      rcases compressYUV_shapes ext gbm.lockYCbCr size metadata (some b) (toSizeT bufferSize) with
        ⟨hc, hrun⟩ | ⟨hc, hx, hrun⟩ | ⟨hc, hx, hreq, sz, calls, hcase⟩ | ⟨hc, hx, pre, t, hpre, hcase⟩
      · rw [hrun]
        simp [monitor, Held.step, Event.isSerialized]
      · rw [hrun]
        simp [monitor, Held.step, Event.isSerialized]
      · rcases hcase with hrun | ⟨tcall, tout, hto, hts, ⟨he, hr, hrun⟩ | ⟨he, hr, hrun⟩ | ⟨he, hr, hrun⟩⟩
        · rw [hrun]
          simp [monitor, Held.step, Event.isSerialized]
        · rw [hrun]
          simp [monitor, Held.step, Event.isSerialized]
        · rw [hrun]
          simp [monitor, Held.step, Event.isSerialized]
        · rw [hrun]
          simp [monitor, Held.step, Event.isSerialized]
      · rcases hpre with ⟨hreq, hp, ht⟩ | ⟨hreq, sz, calls, tcall, tout, hto, hts, he, hr, ht, hp⟩
        · subst hp
          rcases hcase with ⟨hsave, hrun⟩ | ⟨n, call, out, hsave, hout, hcall, ⟨heo, hro, hrun⟩ | ⟨heo, hro, hrun⟩ | ⟨heo, hro, hrun⟩⟩
          · rw [hrun]
            simp [monitor, Held.step, Event.isSerialized]
          · rw [hrun]
            simp [monitor, Held.step, Event.isSerialized]
          · rw [hrun]
            simp [monitor, Held.step, Event.isSerialized]
          · rw [hrun]
            simp [monitor, Held.step, Event.isSerialized]
        · subst hp
          rcases hcase with ⟨hsave, hrun⟩ | ⟨n, call, out, hsave, hout, hcall, ⟨heo, hro, hrun⟩ | ⟨heo, hro, hrun⟩ | ⟨heo, hro, hrun⟩⟩
          · rw [hrun]
            simp [monitor, Held.step, Event.isSerialized]
          · rw [hrun]
            simp [monitor, Held.step, Event.isSerialized]
          · rw [hrun]
            simp [monitor, Held.step, Event.isSerialized]
          · rw [hrun]
            simp [monitor, Held.step, Event.isSerialized]

/-- C10 on an encoder failure: with both locks taken and the serialized EXIF
buffer produced, the main pass fails in a sink that is too small and the
process ends inside `compressYUVImpl`, because `jpeg_std_error` has put the
standard `error_exit` back: the trace has no `unlock` and no `free`, and the
monitor is left with all three resources held. -/
theorem compressJpeg_encoder_failure_releases_nothing :
    (jpeg_std_error JpegErrorMgr.new).error_exit = ErrorExit.standard ∧
    compressYUVImplStatus fullSinkExternals.libjpeg (exampleMainCall 992) = EncodeStatus.exited ∧
    (compressJpeg goodMapper fullSinkExternals 1000 exampleSize noTags).exited = true ∧
    (compressJpeg goodMapper fullSinkExternals 1000 exampleSize noTags).trace =
      [Event.lockYCbCr true, Event.lock true, Event.createExifData true,
       Event.exif_data_save_data (some 64),
       Event.compressMain (exampleMainCall 992)
         { result := false, free_in_buffer := 0, exited := true }] ∧
    (compressJpeg goodMapper fullSinkExternals 1000 exampleSize noTags).trace.count
      Event.unlockImage = 0 ∧
    (compressJpeg goodMapper fullSinkExternals 1000 exampleSize noTags).trace.count
      Event.unlockBuffer = 0 ∧
    (compressJpeg goodMapper fullSinkExternals 1000 exampleSize noTags).trace.count
      Event.free = 0 ∧
    monitor (compressJpeg goodMapper fullSinkExternals 1000 exampleSize noTags).trace
        { image := false, buffer := false, rawExif := false } =
      some { image := true, buffer := true, rawExif := true } := by
  refine ⟨rfl, by decide, by decide, by decide, by decide, by decide, by decide, by decide⟩

/-! ## Quality of the main pass -/

/-- C6: the quality `compressYUV` passes to the main pass is `85` when the
metadata record has no JPEG-quality tag, which is when the lookup returns a
non-zero status, and the value of the tag when the record has it, which is
when the lookup returns zero. -/
theorem compressYUV_main_quality (ext : Externals) (image : android_ycbcr) (imageSize : Rect)
    (metadata : CameraMetadata) (jpegData : Option Nat) (C : Nat)
    (call : EncodeCall) (out : EncodeOutcome)
    (h : Event.compressMain call out ∈ (compressYUV ext image imageSize metadata jpegData C).trace) :
    (metadata Tag.ANDROID_JPEG_QUALITY = none → call.quality = 85) ∧
    (∀ e, metadata Tag.ANDROID_JPEG_QUALITY = some e → call.quality = e.i32 0) ∧
    (∀ entry, (find_camera_metadata_ro_entry metadata Tag.ANDROID_JPEG_QUALITY entry).1 ≠ 0 ↔
      metadata Tag.ANDROID_JPEG_QUALITY = none) ∧
    (∀ entry e, metadata Tag.ANDROID_JPEG_QUALITY = some e →
      (find_camera_metadata_ro_entry metadata Tag.ANDROID_JPEG_QUALITY entry) = (0, e)) := by
  have hq : call.quality = qualityOf metadata := by
    rcases compressYUV_shapes ext image imageSize metadata jpegData C with
      ⟨hc, hrun⟩ | ⟨hc, hx, hrun⟩ | ⟨hc, hx, hreq, sz, calls, hcase⟩ | ⟨hc, hx, pre, t, hpre, hcase⟩
    · rw [hrun] at h
      simp at h
    · rw [hrun] at h
      simp at h
    · rcases hcase with hrun | ⟨tcall, tout, _, _, ⟨_, _, hrun⟩ | ⟨_, _, hrun⟩ | ⟨_, _, hrun⟩⟩ <;>
        (rw [hrun] at h; simp at h)
    · have hpre2 : ∀ e ∈ pre, e ≠ Event.compressMain call out := by
        rcases hpre with ⟨_, hp, _⟩ | ⟨_, sz, calls, tcall, tout, _, _, _, _, _, hp⟩
        · subst hp
          simp
        · subst hp
          simp
      have hnot : Event.compressMain call out ∉ pre := fun hin => hpre2 _ hin rfl
      rcases hcase with ⟨_, hrun⟩ |
        ⟨n, call2, out2, _, _, hcall, ⟨_, _, hrun⟩ | ⟨_, _, hrun⟩ | ⟨_, _, hrun⟩⟩
      · rw [hrun] at h
        simp [hnot] at h
      · rw [hrun] at h
        simp [hnot] at h
        rw [h.1, hcall]
      · rw [hrun] at h
        simp [hnot] at h
        rw [h.1, hcall]
      · rw [hrun] at h
        simp [hnot] at h
        rw [h.1, hcall]
  refine ⟨?_, ?_, ?_, ?_⟩
  · intro hn
    rw [hq, qualityOf, hn]
  · intro e he
    rw [hq, qualityOf, he]
  · intro entry
    unfold find_camera_metadata_ro_entry
    cases metadata Tag.ANDROID_JPEG_QUALITY <;> simp [NOT_FOUND]
  · intro entry e he
    unfold find_camera_metadata_ro_entry
    rw [he]

/-! ## The trailer and the sink capacities -/

theorem sizeSub_of_le (a b : Nat) (hb : b ≤ a) (ha : a < 2 ^ 64) : sizeSub a b = a - b := by
  unfold sizeSub sizeBits
  have hb2 : b % 2 ^ 64 = b := Nat.mod_eq_of_lt (by omega)
  rw [hb2]
  omega

theorem sizeSub_of_lt (a b : Nat) (hab : a < b) (hb : b < 2 ^ 64) :
    sizeSub a b = 2 ^ 64 + a - b := by
  unfold sizeSub sizeBits
  have hb2 : b % 2 ^ 64 = b := Nat.mod_eq_of_lt hb
  rw [hb2]
  omega

/-- The capacities `compressYUV` constructs its sinks with: the thumbnail pass
gets the whole capacity `C`, the main pass gets `C - 8` computed in `size_t`,
which is `2 ^ 64 + C - 8` when `C < 8`. -/
theorem compressYUV_sink_capacities (ext : Externals) (image : android_ycbcr)
    (imageSize : Rect) (metadata : CameraMetadata) (jpegData : Option Nat) (C : Nat)
    (hC : C < 2 ^ 64) (call : EncodeCall) (out : EncodeOutcome) :
    (Event.compressThumbnail call out ∈
        (compressYUV ext image imageSize metadata jpegData C).trace →
      call.sink.free_in_buffer = C) ∧
    (Event.compressMain call out ∈
        (compressYUV ext image imageSize metadata jpegData C).trace →
      call.sink.free_in_buffer = (if 8 ≤ C then C - 8 else 2 ^ 64 + C - 8)) := by
  have hmain : sizeSub C sizeofCamera3JpegBlob = (if 8 ≤ C then C - 8 else 2 ^ 64 + C - 8) := by
    unfold sizeofCamera3JpegBlob
    split
    · exact sizeSub_of_le C 8 (by omega) hC
    · exact sizeSub_of_lt C 8 (by omega) (by decide)
  have hthumb : ∀ tcall : EncodeCall, tcall.sink = StaticBufferSink.new jpegData C →
      call = tcall → call.sink.free_in_buffer = C := by
    intro tcall hs h1
    rw [h1, hs]
    rfl
  have hmain2 : ∀ (n : Nat) (call2 : EncodeCall),
      call2 = { image := image, imageSize := imageSize, rawExif := some n,
                quality := qualityOf metadata,
                sink := StaticBufferSink.new jpegData (sizeSub C sizeofCamera3JpegBlob) } →
      call = call2 → call.sink.free_in_buffer = (if 8 ≤ C then C - 8 else 2 ^ 64 + C - 8) := by
    intro n call2 hcall h1
    rw [h1, hcall, ← hmain]
    rfl
  rcases compressYUV_shapes ext image imageSize metadata jpegData C with
    ⟨hc, hrun⟩ | ⟨hc, hx, hrun⟩ | ⟨hc, hx, hreq, sz, calls, hcase⟩ | ⟨hc, hx, pre, t, hpre, hcase⟩
  · rw [hrun]
    simp
  · rw [hrun]
    simp
  · rcases hcase with hrun |
      ⟨tcall, tout, _, hs, ⟨_, _, hrun⟩ | ⟨_, _, hrun⟩ | ⟨_, _, hrun⟩⟩
    · rw [hrun]
      simp
    all_goals
      rw [hrun]
      constructor
      · intro h
        simp at h
        exact hthumb tcall hs h.1
      · intro h
        simp at h
  · rcases hpre with ⟨hreq, hp, _⟩ | ⟨hreq, sz, calls, tcall, tout, _, hs, _, _, _, hp⟩
    · subst hp
      rcases hcase with ⟨_, hrun⟩ |
        ⟨n, call2, out2, _, _, hcall, ⟨_, _, hrun⟩ | ⟨_, _, hrun⟩ | ⟨_, _, hrun⟩⟩
      · rw [hrun]
        simp
      all_goals
        rw [hrun]
        constructor
        · intro h
          simp at h
        · intro h
          simp at h
          exact hmain2 n call2 hcall h.1
    · subst hp
      rcases hcase with ⟨_, hrun⟩ |
        ⟨n, call2, out2, _, _, hcall, ⟨_, _, hrun⟩ | ⟨_, _, hrun⟩ | ⟨_, _, hrun⟩⟩
      · rw [hrun]
        constructor
        · intro h
          simp at h
          exact hthumb tcall hs h.1
        · intro h
          simp at h
      all_goals
        rw [hrun]
        constructor
        · intro h
          simp at h
          exact hthumb tcall hs h.1
        · intro h
          simp at h
          exact hmain2 n call2 hcall h.1

/-- C3, amended: for a destination capacity `C` with `8 <= C < 2 ^ 64` and an
encoder that leaves at most the capacity of its sink as `free_in_buffer`,
whenever `compressYUV` returns `true` it writes exactly one trailer record, at
byte offset `C - 8`, with the magic `CAMERA3_JPEG_BLOB_ID` and the length
`S mod 2 ^ 32`, where `S` is the capacity of the main pass's sink, `C - 8`,
minus what the sink has left; `S <= C - 8`, and the recorded length is `S`
itself when `S < 2 ^ 32`, in particular when `C - 8 < 2 ^ 32`. -/
theorem compressYUV_trailer (ext : Externals) (image : android_ycbcr) (imageSize : Rect)
    (metadata : CameraMetadata) (jpegData : Option Nat) (C : Nat)
    (hC : sizeofCamera3JpegBlob ≤ C) (hC2 : C < 2 ^ 64)
    (hsink : ∀ call, (ext.compressYUVImpl call).free_in_buffer ≤ call.sink.free_in_buffer)
    (hres : (compressYUV ext image imageSize metadata jpegData C).result = true) :
    ∃ (call : EncodeCall) (out : EncodeOutcome),
      Event.compressMain call out ∈ (compressYUV ext image imageSize metadata jpegData C).trace ∧
      out = ext.compressYUVImpl call ∧
      call.sink.free_in_buffer = C - sizeofCamera3JpegBlob ∧
      out.free_in_buffer ≤ call.sink.free_in_buffer ∧
      Event.memcpyBlob (C - sizeofCamera3JpegBlob) CAMERA3_JPEG_BLOB_ID
          (toUInt32 (call.sink.free_in_buffer - out.free_in_buffer)) ∈
        (compressYUV ext image imageSize metadata jpegData C).trace ∧
      (∀ offset id size,
        Event.memcpyBlob offset id size ∈
          (compressYUV ext image imageSize metadata jpegData C).trace →
        offset = C - sizeofCamera3JpegBlob ∧ id = CAMERA3_JPEG_BLOB_ID ∧
        size = toUInt32 (call.sink.free_in_buffer - out.free_in_buffer)) ∧
      call.sink.free_in_buffer - out.free_in_buffer ≤ C - sizeofCamera3JpegBlob ∧
      (call.sink.free_in_buffer - out.free_in_buffer < 2 ^ 32 →
        toUInt32 (call.sink.free_in_buffer - out.free_in_buffer) =
          call.sink.free_in_buffer - out.free_in_buffer) ∧
      (C - sizeofCamera3JpegBlob < 2 ^ 32 →
        toUInt32 (call.sink.free_in_buffer - out.free_in_buffer) =
          call.sink.free_in_buffer - out.free_in_buffer) := by
  have hcap : sizeSub C sizeofCamera3JpegBlob = C - sizeofCamera3JpegBlob :=
    sizeSub_of_le C sizeofCamera3JpegBlob hC hC2
  have key : ∀ (pre : List Event) (n : Nat) (call : EncodeCall) (out : EncodeOutcome),
      (∀ offset id size, Event.memcpyBlob offset id size ∉ pre) →
      out = ext.compressYUVImpl call →
      call = { image := image, imageSize := imageSize, rawExif := some n,
               quality := qualityOf metadata,
               sink := StaticBufferSink.new jpegData (sizeSub C sizeofCamera3JpegBlob) } →
      compressYUV ext image imageSize metadata jpegData C =
        { result := true,
          trace := .createExifData true ::
            (pre ++ [.exif_data_save_data (some n),
                     .compressMain call out,
                     .memcpyBlob (sizeSub C sizeofCamera3JpegBlob) CAMERA3_JPEG_BLOB_ID
                       (toUInt32 (sizeSub (sizeSub C sizeofCamera3JpegBlob) out.free_in_buffer)),
                     .free]),
          exited := false } →
      ∃ (call : EncodeCall) (out : EncodeOutcome),
        Event.compressMain call out ∈
          (compressYUV ext image imageSize metadata jpegData C).trace ∧
        out = ext.compressYUVImpl call ∧
        call.sink.free_in_buffer = C - sizeofCamera3JpegBlob ∧
        out.free_in_buffer ≤ call.sink.free_in_buffer ∧
        Event.memcpyBlob (C - sizeofCamera3JpegBlob) CAMERA3_JPEG_BLOB_ID
            (toUInt32 (call.sink.free_in_buffer - out.free_in_buffer)) ∈
          (compressYUV ext image imageSize metadata jpegData C).trace ∧
        (∀ offset id size,
          Event.memcpyBlob offset id size ∈
            (compressYUV ext image imageSize metadata jpegData C).trace →
          offset = C - sizeofCamera3JpegBlob ∧ id = CAMERA3_JPEG_BLOB_ID ∧
          size = toUInt32 (call.sink.free_in_buffer - out.free_in_buffer)) ∧
        call.sink.free_in_buffer - out.free_in_buffer ≤ C - sizeofCamera3JpegBlob ∧
        (call.sink.free_in_buffer - out.free_in_buffer < 2 ^ 32 →
          toUInt32 (call.sink.free_in_buffer - out.free_in_buffer) =
            call.sink.free_in_buffer - out.free_in_buffer) ∧
        (C - sizeofCamera3JpegBlob < 2 ^ 32 →
          toUInt32 (call.sink.free_in_buffer - out.free_in_buffer) =
            call.sink.free_in_buffer - out.free_in_buffer) := by
    intro pre n call out hpre hout hcall hrun
    have hfree : call.sink.free_in_buffer = C - sizeofCamera3JpegBlob := by
      rw [hcall, ← hcap]
      rfl
    have hle : out.free_in_buffer ≤ call.sink.free_in_buffer := by
      rw [hout]
      exact hsink call
    have hS : sizeSub (sizeSub C sizeofCamera3JpegBlob) out.free_in_buffer =
        call.sink.free_in_buffer - out.free_in_buffer := by
      rw [hcap, ← hfree]
      exact sizeSub_of_le _ _ hle (by rw [hfree]; omega)
    rw [hS, hcap] at hrun
    refine ⟨call, out, ?_, hout, hfree, hle, ?_, ?_, ?_, ?_, ?_⟩
    · rw [hrun]
      simp
    · rw [hrun]
      simp
    · intro offset id size hmem
      rw [hrun] at hmem
      simp [hpre] at hmem
      exact hmem
    · rw [hfree]
      omega
    · intro hlt
      exact Nat.mod_eq_of_lt hlt
    · intro hlt
      apply Nat.mod_eq_of_lt
      rw [hfree]
      omega
  rcases compressYUV_shapes ext image imageSize metadata jpegData C with
    ⟨hc, hrun⟩ | ⟨hc, hx, hrun⟩ | ⟨hc, hx, hreq, sz, calls, hcase⟩ | ⟨hc, hx, pre, t, hpre, hcase⟩
  · rw [hrun] at hres
    cases hres
  · rw [hrun] at hres
    cases hres
  · rcases hcase with hrun | ⟨tcall, tout, _, _, ⟨_, _, hrun⟩ | ⟨_, _, hrun⟩ | ⟨_, _, hrun⟩⟩ <;>
      (rw [hrun] at hres; cases hres)
  · have hpre2 : ∀ offset id size, Event.memcpyBlob offset id size ∉ pre := by
      rcases hpre with ⟨_, hp, _⟩ | ⟨_, sz, calls, tcall, tout, _, _, _, _, _, hp⟩
      · subst hp
        simp
      · subst hp
        simp
    rcases hcase with ⟨_, hrun⟩ |
      ⟨n, call, out, _, hout, hcall, ⟨_, _, hrun⟩ | ⟨_, _, hrun⟩ | ⟨_, _, hrun⟩⟩
    · rw [hrun] at hres
      cases hres
    · rw [hrun] at hres
      cases hres
    · exact key pre n call out hpre2 hout hcall hrun
    · rw [hrun] at hres
      cases hres


/-- C3 at capacity 100000 with a 160x120 thumbnail: the passes write 100 bytes
each, the trailer `(255, 100)` goes to offset 99992. -/
theorem compressYUV_trailer_witness :
    (sizeofCamera3JpegBlob ≤ 100000 ∧ 100000 < 2 ^ 64 ∧
      (∀ call, ((goodExternals 100).compressYUVImpl call).free_in_buffer ≤
        call.sink.free_in_buffer) ∧
      (compressYUV (goodExternals 100) exampleImage exampleSize (tagsOf 160 120 70 90) (some 0)
        100000).result = true) ∧
    Event.memcpyBlob 99992 255 100 ∈
      (compressYUV (goodExternals 100) exampleImage exampleSize (tagsOf 160 120 70 90) (some 0)
        100000).trace := by
  refine ⟨⟨by decide, by decide, fun call => Nat.sub_le _ _, by decide⟩, ?_⟩
  obtain ⟨call, out, _, hout, hfree, _, hblob, _⟩ :=
    compressYUV_trailer (goodExternals 100) exampleImage exampleSize (tagsOf 160 120 70 90)
      (some 0) 100000 (by decide) (by decide) (fun call => Nat.sub_le _ _) (by decide)
  have hfree2 : out.free_in_buffer = call.sink.free_in_buffer - 100 := by
    rw [hout]
    rfl
  rw [hfree2, hfree] at hblob
  exact hblob

/-- C3 as stated fails in two ways.  With capacity `2 ^ 33` and a main pass
that writes `2 ^ 32 + 5` bytes (within its sink), `compressYUV` returns `true`
and `S = 4294967301`, but the length in the trailer is `5`: `jpeg_size` is a
32-bit field.  With capacity `4`, below the trailer size, the main sink gets
the capacity `2 ^ 64 - 4`, the trailer goes to offset `2 ^ 64 - 4` and
`S = 100` is not at most `4 - 8`. -/
theorem compressYUV_trailer_counterexample :
    ((∀ call, ((goodExternals 4294967301).compressYUVImpl call).free_in_buffer ≤
        call.sink.free_in_buffer) ∧
      (compressYUV (goodExternals 4294967301) exampleImage exampleSize noTags (some 0)
        8589934592).result = true ∧
      (compressYUV (goodExternals 4294967301) exampleImage exampleSize noTags (some 0)
        8589934592).trace =
        [Event.createExifData true, Event.exif_data_save_data (some 64),
         Event.compressMain (exampleMainCall 8589934584)
           { result := true, free_in_buffer := 4294967283 },
         Event.memcpyBlob 8589934584 255 5, Event.free] ∧
      8589934584 - 4294967283 = 4294967301 ∧ 4294967301 ≤ 8589934592 - 8 ∧
      (5 : Nat) ≠ 4294967301) ∧
    ((compressYUV (goodExternals 100) exampleImage exampleSize noTags (some 0) 4).result = true ∧
      (compressYUV (goodExternals 100) exampleImage exampleSize noTags (some 0) 4).trace =
        [Event.createExifData true, Event.exif_data_save_data (some 64),
         Event.compressMain (exampleMainCall 18446744073709551612)
           { result := true, free_in_buffer := 18446744073709551512 },
         Event.memcpyBlob 18446744073709551612 255 100, Event.free] ∧
      18446744073709551612 - 18446744073709551512 = 100 ∧
      ¬ ((100 : Int) ≤ (4 : Int) - 8) ∧
      ¬ ((18446744073709551612 : Int) = (4 : Int) - 8)) := by
  refine ⟨⟨fun call => Nat.sub_le _ _, by decide, by decide, by decide, by decide, by decide⟩,
    ⟨by decide, by decide, by decide, by decide, by decide⟩⟩

/-- C4 at capacity 0: with no thumbnail requested and collaborators that
succeed, `compressYUV` constructs the main sink with capacity `2 ^ 64 - 8`
(the unsigned `0 - 8`), which is not at most `0`; the pass may write its 100
bytes, the run returns `true`, and the trailer is copied to offset
`2 ^ 64 - 8`, so that offset plus trailer size is not at most `0`. -/
theorem compressYUV_capacity_zero :
    (compressYUV (goodExternals 100) exampleImage exampleSize noTags (some 0) 0).result = true ∧
    (compressYUV (goodExternals 100) exampleImage exampleSize noTags (some 0) 0).trace =
      [Event.createExifData true, Event.exif_data_save_data (some 64),
       Event.compressMain (exampleMainCall 18446744073709551608)
         { result := true, free_in_buffer := 18446744073709551508 },
       Event.memcpyBlob 18446744073709551608 255 100, Event.free] ∧
    (exampleMainCall 18446744073709551608).sink.free_in_buffer = 2 ^ 64 - 8 ∧
    ¬ ((exampleMainCall 18446744073709551608).sink.free_in_buffer ≤ 0 - sizeofCamera3JpegBlob) ∧
    ¬ ((exampleMainCall 18446744073709551608).sink.free_in_buffer ≤ 0) ∧
    ¬ (18446744073709551608 + sizeofCamera3JpegBlob ≤ 0) := by
  refine ⟨by decide, by decide, by decide, by decide, by decide, by decide⟩

/-! ## The thumbnail gate -/

/-- The gate of the thumbnail block in terms of the tag values: both tags
present, width and height not zero modulo `65536`, quality positive. -/
theorem thumbnailRequested_iff (metadata : CameraMetadata) :
    thumbnailRequested metadata = true ↔
      ∃ s q, metadata Tag.ANDROID_JPEG_THUMBNAIL_SIZE = some s ∧
        metadata Tag.ANDROID_JPEG_THUMBNAIL_QUALITY = some q ∧
        s.i32 0 % 65536 ≠ 0 ∧ s.i32 1 % 65536 ≠ 0 ∧ 0 < q.i32 0 := by
  have hz : ∀ x : Int, toUInt16 x ≠ 0 ↔ x % 65536 ≠ 0 := by
    intro x
    unfold toUInt16
    omega
  unfold thumbnailRequested
  cases hs : metadata Tag.ANDROID_JPEG_THUMBNAIL_SIZE with
  | none => simp
  | some s =>
    cases hq : metadata Tag.ANDROID_JPEG_THUMBNAIL_QUALITY with
    | none => simp
    | some q =>
      simp only [Bool.and_eq_true, decide_eq_true_eq, hz, Option.some.injEq, exists_and_left,
        exists_eq_left']
      tauto

/-- Once the EXIF build has succeeded, the thumbnail stage is attempted exactly
when the gate is open. -/
theorem compressYUV_thumbnail_attempted_iff (ext : Externals) (image : android_ycbcr)
    (imageSize : Rect) (metadata : CameraMetadata) (jpegData : Option Nat) (C : Nat) :
    (∃ sz calls ok, Event.resizeYUV sz calls ok ∈
        (compressYUV ext image imageSize metadata jpegData C).trace) ↔
      (Event.createExifData true ∈ (compressYUV ext image imageSize metadata jpegData C).trace ∧
        thumbnailRequested metadata = true) := by
  rcases compressYUV_shapes ext image imageSize metadata jpegData C with
    ⟨hc, hrun⟩ | ⟨hc, hx, hrun⟩ | ⟨hc, hx, hreq, sz, calls, hcase⟩ | ⟨hc, hx, pre, t, hpre, hcase⟩
  · rw [hrun]
    simp
  · rw [hrun]
    simp
  · rcases hcase with hrun | ⟨tcall, tout, hto, hts, ⟨he, hr, hrun⟩ | ⟨he, hr, hrun⟩ | ⟨he, hr, hrun⟩⟩
    · rw [hrun]
      simp [hreq]
    · rw [hrun]
      simp [hreq]
    · rw [hrun]
      simp [hreq]
    · rw [hrun]
      simp [hreq]
  · rcases hpre with ⟨hreq, hp, ht⟩ | ⟨hreq, sz, calls, tcall, tout, hto, hts, he, hr, ht, hp⟩
    · subst hp
      rcases hcase with ⟨hsave, hrun⟩ | ⟨n, call, out, hsave, hout, hcall, ⟨heo, hro, hrun⟩ | ⟨heo, hro, hrun⟩ | ⟨heo, hro, hrun⟩⟩
      · rw [hrun]
        simp [hreq]
      · rw [hrun]
        simp [hreq]
      · rw [hrun]
        simp [hreq]
      · rw [hrun]
        simp [hreq]
    · subst hp
      rcases hcase with ⟨hsave, hrun⟩ | ⟨n, call, out, hsave, hout, hcall, ⟨heo, hro, hrun⟩ | ⟨heo, hro, hrun⟩ | ⟨heo, hro, hrun⟩⟩
      · rw [hrun]
        simp [hreq]
      · rw [hrun]
        simp [hreq]
      · rw [hrun]
        simp [hreq]
      · rw [hrun]
        simp [hreq]

/-- C5 at the thumbnail size `-2 x 120` with thumbnail quality 70: the width
is stored in a `uint16_t` before it is compared with zero, so it is 65534, the
gate is open and the run goes through the scale, thumbnail-compress and attach
stages with a 65534x120 thumbnail.  The sizes `0 x 0` and quality `0` close the
gate, `160 x 120` with quality 70 opens it. -/
theorem compressYUV_negative_thumbnail_width :
    toUInt16 (-2) = 65534 ∧
    thumbnailRequested (tagsOf (-2) 120 70 90) = true ∧
    (stagesOf (compressYUV (goodExternals 100) exampleImage exampleSize (tagsOf (-2) 120 70 90)
        (some 0) 100000).trace).map Prod.fst =
      [Stage.exifBuild, Stage.scale, Stage.compressThumbnail, Stage.attachThumbnail,
       Stage.serializeExif, Stage.compressMain, Stage.writeTrailer] ∧
    (∃ calls, Event.resizeYUV { width := 65534, height := 120 } calls true ∈
      (compressYUV (goodExternals 100) exampleImage exampleSize (tagsOf (-2) 120 70 90)
        (some 0) 100000).trace) ∧
    thumbnailRequested (tagsOf 0 0 70 90) = false ∧
    thumbnailRequested (tagsOf 160 120 0 90) = false ∧
    thumbnailRequested (tagsOf 160 120 70 90) = true := by
  refine ⟨by decide, by decide, by decide, ?_, by decide, by decide, by decide⟩
  exact ⟨(resizeYUV (goodExternals 100).I420Scale exampleImage exampleSize
    { width := 65534, height := 120 } []).scaleCalls, by decide⟩

/-- C6 on two records: without the JPEG-quality tag the main pass gets 85, with
the tag value 93 it gets 93. -/
theorem compressYUV_main_quality_witness :
    (Event.compressMain (exampleMainCall 99992) { result := true, free_in_buffer := 99892 } ∈
        (compressYUV (goodExternals 100) exampleImage exampleSize noTags (some 0) 100000).trace ∧
      noTags Tag.ANDROID_JPEG_QUALITY = none ∧
      (exampleMainCall 99992).quality = 85) ∧
    (Event.compressMain { exampleMainCall 99992 with quality := 93 }
          { result := true, free_in_buffer := 99892 } ∈
        (compressYUV (goodExternals 100) exampleImage exampleSize (tagsOf 160 120 0 93) (some 0)
          100000).trace ∧
      ∀ e, tagsOf 160 120 0 93 Tag.ANDROID_JPEG_QUALITY = some e →
        ({ exampleMainCall 99992 with quality := 93 } : EncodeCall).quality = e.i32 0) :=
  ⟨⟨by decide, rfl,
    (compressYUV_main_quality (goodExternals 100) exampleImage exampleSize noTags (some 0)
      100000 (exampleMainCall 99992) { result := true, free_in_buffer := 99892 }
      (by decide)).1 rfl⟩,
   ⟨by decide,
    (compressYUV_main_quality (goodExternals 100) exampleImage exampleSize
      (tagsOf 160 120 0 93) (some 0) 100000 { exampleMainCall 99992 with quality := 93 }
      { result := true, free_in_buffer := 99892 } (by decide)).2.1⟩⟩

end Jpeg
